import Mathlib

/-!
# DamBreakGate: particle packing and gate kinematics

A shallow embedding of `src/DamBreakGate.cc` (GPUSPH dam-break-with-gate
scenario) and the properties of its three operations:

* `DamBreakGate.fill_parts`     builds the four particle lists and returns their total size;
* `DamBreakGate.copy_to_array`  packs the four lists into the solver buffers;
* `DamBreakGate.mb_callback`    prescribes the motion of the gate.

Conventions of the embedding.

* `float` and `double` values are rationals (`ℚ`): arithmetic is exact, there
  is no rounding, no NaN and no infinity.
* Buffers are raw pointers in the source (`float4 *pos`, ...); here a buffer is
  a total function from slot numbers to values and a store is a
  `Function.update`.
* Loop counters and sizes are natural numbers.  The source declares them
  `uint`/`int`; particle counts are taken to fit those types (the count
  returned by `fill_parts` is itself an `int`), so no counter wraps around.
  The only place where a signed value can leave the naturals, the subscript
  `j-1` of the diagnostic reads, is computed in `Int`.
* `BufferList.log` is a ghost field: every subscripted store of
  `copy_to_array` and every diagnostic load appends the buffer and the
  subscript it uses.  It carries no data of the program.
* A region `Cube(origin, vx, vy, vz)` or `Rect(origin, vx, vy)` is read as the
  point set `origin + a*vx + b*vy (+ c*vz)` with parameters in `[0, 1]`; the
  lattice the fill primitives lay inside a region is external and stays a
  parameter (`FillPrimitives`).
-/

set_option autoImplicit false

namespace GPUSPH

/-! ## Vector types -/

/-- CUDA `float3`. -/
structure float3 where
  x : ℚ
  y : ℚ
  z : ℚ
deriving DecidableEq, Repr, Inhabited

/-- CUDA `float4`. -/
structure float4 where
  x : ℚ
  y : ℚ
  z : ℚ
  w : ℚ
deriving DecidableEq, Repr, Inhabited

/-- Three-argument `make_float3(x, y, z)`. -/
def make_float3 (x y z : ℚ) : float3 := ⟨x, y, z⟩

/-- One-argument `make_float3(a)`: every component is `a`. -/
def make_float3_1 (a : ℚ) : float3 := ⟨a, a, a⟩

/-- Four-argument `make_float4(x, y, z, w)`. -/
def make_float4 (x y z w : ℚ) : float4 := ⟨x, y, z, w⟩

/-- Scaling `float3 * float`, componentwise. -/
def float3.mul (v : float3) (a : ℚ) : float3 := ⟨v.x * a, v.y * a, v.z * a⟩

/-- Sum `float3 + float3`, componentwise (the `+=` of the source). -/
def float3.add (u v : float3) : float3 := ⟨u.x + v.x, u.y + v.y, u.z + v.z⟩

/-! ## Particle types and metadata -/

/-- Modelled from the spec: the particle type constants (`FLUIDPART`,
`BOUNDPART`, `GATEPART`) of the header `particledefine.h`, which is not among
the sources; only the three constants named by `DamBreakGate.cc` are listed. -/
inductive ParticleType where
  | FLUIDPART
  | BOUNDPART
  | GATEPART
deriving DecidableEq, Repr, Inhabited

export ParticleType (FLUIDPART BOUNDPART GATEPART)

/-- Modelled from the spec: the metadata record `particleinfo` ("material id,
sub-index, global index"); its declaration is in a header that is not among
the sources.  The three fields are the three arguments of
`make_particleinfo`. -/
structure particleinfo where
  type : ParticleType
  obj : Nat
  id : Nat
deriving DecidableEq, Repr, Inhabited

/-- Modelled from the spec: `make_particleinfo(type, obj, id)` builds the
metadata record from material id, sub-index and global index. -/
def make_particleinfo (type : ParticleType) (obj id : Nat) : particleinfo :=
  ⟨type, obj, id⟩

/-- Spatial-hash key. -/
abbrev hashKey := Nat

/-! ## Geometry -/

/-- Modelled from the spec: a particle record `Point`, three coordinates and
the transiently assigned mass (class `Point` of `Point.h`). -/
structure Point where
  x : ℚ
  y : ℚ
  z : ℚ
  mass : ℚ
deriving DecidableEq, Repr, Inhabited

/-- Constructor `Point(x, y, z)`. -/
def Point.mk3 (x y z : ℚ) : Point := ⟨x, y, z, 0⟩

/-- Conversion `Point(float3)`. -/
def Point.ofFloat3 (v : float3) : Point := ⟨v.x, v.y, v.z, 0⟩

/-- Sum `Point + Point`, on the coordinates. -/
def Point.add (p q : Point) : Point := ⟨p.x + q.x, p.y + q.y, p.z + q.z, 0⟩

/-- Directed extent `Vector(x, y, z)`. -/
structure Vector where
  x : ℚ
  y : ℚ
  z : ℚ
deriving DecidableEq, Repr, Inhabited

/-- Region descriptor `Cube(origin, vx, vy, vz)`. -/
structure Cube where
  origin : Point
  vx : Vector
  vy : Vector
  vz : Vector
deriving DecidableEq, Repr, Inhabited

/-- Region descriptor `Rect(origin, vx, vy)`. -/
structure Rect where
  origin : Point
  vx : Vector
  vy : Vector
deriving DecidableEq, Repr, Inhabited

/-- The two overloads of `SetPartMass`: `SetPartMass(dx, rho)` and
`SetPartMass(mass)`; the gate passes the constant `GATEPART` to the second. -/
inductive PartMass where
  | ofDensity (dx rho : ℚ)
  | ofTag (tag : ParticleType)
deriving DecidableEq, Repr, Inhabited

/-- The fill primitives of `Cube.h` and `Rect.h`, which are not among the
sources: each returns the points it would append, given the region, the mass
set by the preceding `SetPartMass`, the spacing and the boolean flag. -/
structure FillPrimitives where
  CubeFillBorder : Cube → PartMass → ℚ → Bool → List Point
  CubeFill : Cube → PartMass → ℚ → Bool → List Point
  RectFill : Rect → PartMass → ℚ → Bool → List Point

/-! ## Problem state -/

/-- The fields of `MbCallBack` used by `DamBreakGate.cc`. -/
structure MbCallBack where
  type : ParticleType
  origin : float3
  vel : float3
  disp : float3
  tstart : ℚ
  tend : ℚ
deriving DecidableEq, Repr, Inhabited

/-- The fields of `PhysParams` used by the builder and the packer. -/
structure PhysParams where
  r0 : ℚ
  rho0 : Nat → ℚ

/-- The members of `DamBreakGate` (and of its base `Problem`) used by
`fill_parts`, `copy_to_array` and `mb_callback`. -/
structure DamBreakGate where
  m_deltap : ℚ
  m_physparams : PhysParams
  m_mbcallbackdata : Nat → MbCallBack
  experiment_box : Cube
  obstacle : Cube
  parts : List Point
  boundary_parts : List Point
  obstacle_parts : List Point
  gate_parts : List Point

/-- Macro `ORIGIN_X` ("default: origin in 0,0,0"). -/
def ORIGIN_X : ℚ := 0

/-- Macro `ORIGIN_Y`. -/
def ORIGIN_Y : ℚ := 0

/-- Macro `ORIGIN_Z`. -/
def ORIGIN_Z : ℚ := 0

/-! ## Gate kinematics -/

/-- `DamBreakGate::mb_callback(t, dt, i)`: updates entry 0 of
`m_mbcallbackdata` and returns (a reference to) that entry.  The result is the
new object state together with the entry returned. -/
def DamBreakGate.mb_callback (self : DamBreakGate) (t dt : ℚ) (_i : Int) :
    DamBreakGate × MbCallBack :=
  let mbgatedata := self.m_mbcallbackdata 0
  let mbgatedata :=
    if t ≥ mbgatedata.tstart ∧ t < mbgatedata.tend then
      let mbgatedata :=
        { mbgatedata with vel := make_float3 0 0 (4 * (t - mbgatedata.tstart)) }
      { mbgatedata with disp := mbgatedata.disp.add (mbgatedata.vel.mul dt) }
    else
      { mbgatedata with vel := make_float3_1 0 }
  let self := { self with m_mbcallbackdata := Function.update self.m_mbcallbackdata 0 mbgatedata }
  (self, self.m_mbcallbackdata 0)

/-- The constructor `DamBreakGate::DamBreakGate`, restricted to the members
above: `base` is the object as the base-class constructor leaves it. -/
def DamBreakGate.construct (base : DamBreakGate) : DamBreakGate :=
  -- set_deltap(0.015f)
  let self := { base with m_deltap := 0.015 }
  -- m_physparams.set_density(0, 1000.0, 7.0f, 20.f)
  let self := { self with m_physparams :=
    { self.m_physparams with rho0 := Function.update self.m_physparams.rho0 0 1000 } }
  -- m_physparams.r0 = m_deltap
  let self := { self with m_physparams := { self.m_physparams with r0 := self.m_deltap } }
  let mbgatedata := self.m_mbcallbackdata 0
  let mbgatedata := { mbgatedata with origin := make_float3 (0.4 + 2 * self.m_physparams.r0) 0 0 }
  let mbgatedata := { mbgatedata with type := GATEPART }
  let mbgatedata := { mbgatedata with tstart := 0.2 }
  let mbgatedata := { mbgatedata with tend := 0.6 }
  let mbgatedata := { mbgatedata with vel := make_float3 0 0 0 }
  let self := { self with m_mbcallbackdata := Function.update self.m_mbcallbackdata 0 mbgatedata }
  (self.mb_callback 0 0 0).1

/-- A sequence of calls `mb_callback(t, dt, i)`, made one after the other by
the time-integration loop; the result is the object state after the last. -/
def DamBreakGate.mb_run (self : DamBreakGate) : List (ℚ × ℚ × Int) → DamBreakGate
  | [] => self
  | (t, dt, i) :: rest => DamBreakGate.mb_run (self.mb_callback t dt i).1 rest

/-- The calls of a fixed-step integration loop up to and including step `n`:
step `k` calls `mb_callback(k * dt, dt, 0)`. -/
def fixedStepCalls (dt : ℚ) (n : Nat) : List (ℚ × ℚ × Int) :=
  (List.range (n + 1)).map (fun k => ((k : ℚ) * dt, dt, 0))

/-! ## Particle set builder -/

/-- `DamBreakGate::fill_parts`: returns the new object state and the returned
count.  The local `wet` is the constant `false` in the source ("set wet to true
have a wet bed experiment"); it is an argument here so that both settings can
be stated.  `reserve` has no effect on the contents of a vector. -/
def DamBreakGate.fill_parts (prims : FillPrimitives) (wet : Bool) (self : DamBreakGate) :
    DamBreakGate × Nat :=
  let r0 := self.m_physparams.r0
  let m_deltap := self.m_deltap
  let rho0 := self.m_physparams.rho0 0
  let experiment_box : Cube :=
    ⟨Point.mk3 ORIGIN_X ORIGIN_Y ORIGIN_Z, ⟨1.6, 0, 0⟩, ⟨0, 0.67, 0⟩, ⟨0, 0, 0.4⟩⟩
  let mbgatedata := self.m_mbcallbackdata 0
  let gate : Rect :=
    ⟨(Point.ofFloat3 mbgatedata.origin).add (Point.mk3 ORIGIN_X ORIGIN_Y ORIGIN_Z),
      ⟨0, 0.67, 0⟩, ⟨0, 0, 0.4⟩⟩
  let obstacle : Cube :=
    ⟨Point.mk3 (0.9 + ORIGIN_X) (0.24 + ORIGIN_Y) (r0 + ORIGIN_Z),
      ⟨0.12, 0, 0⟩, ⟨0, 0.12, 0⟩, ⟨0, 0, 0.4 - r0⟩⟩
  let fluid : Cube :=
    ⟨Point.mk3 (r0 + ORIGIN_X) (r0 + ORIGIN_Y) (r0 + ORIGIN_Z),
      ⟨0.4, 0, 0⟩, ⟨0, 0.67 - 2 * r0, 0⟩, ⟨0, 0, 0.4 - r0⟩⟩
  -- fluid1 .. fluid4 are assigned under `if (wet)` and used only under `if (wet)`
  let fluid1 : Cube :=
    ⟨Point.mk3 (0.4 + m_deltap + r0 + ORIGIN_X) (r0 + ORIGIN_Y) (r0 + ORIGIN_Z),
      ⟨0.5 - m_deltap - 2 * r0, 0, 0⟩, ⟨0, 0.67 - 2 * r0, 0⟩, ⟨0, 0, 0.03⟩⟩
  let fluid2 : Cube :=
    ⟨Point.mk3 (1.02 + r0 + ORIGIN_X) (r0 + ORIGIN_Y) (r0 + ORIGIN_Z),
      ⟨0.58 - 2 * r0, 0, 0⟩, ⟨0, 0.67 - 2 * r0, 0⟩, ⟨0, 0, 0.03⟩⟩
  let fluid3 : Cube :=
    ⟨Point.mk3 (0.9 + ORIGIN_X) (m_deltap + ORIGIN_Y) (r0 + ORIGIN_Z),
      ⟨0.12, 0, 0⟩, ⟨0, 0.24 - 2 * r0, 0⟩, ⟨0, 0, 0.03⟩⟩
  let fluid4 : Cube :=
    ⟨Point.mk3 (0.9 + ORIGIN_X) (0.36 + m_deltap + ORIGIN_Y) (r0 + ORIGIN_Z),
      ⟨0.12, 0, 0⟩, ⟨0, 0.31 - 2 * r0, 0⟩, ⟨0, 0, 0.03⟩⟩
  let self := { self with experiment_box := experiment_box, obstacle := obstacle }
  let self := { self with boundary_parts := self.boundary_parts ++
    (prims.CubeFillBorder experiment_box (.ofDensity r0 rho0) r0 false) }
  let self := { self with gate_parts := self.gate_parts ++
    (prims.RectFill gate (.ofTag GATEPART) r0 true) }
  let self := { self with obstacle_parts := self.obstacle_parts ++
    (prims.CubeFillBorder obstacle (.ofDensity r0 rho0) r0 true) }
  let self := { self with parts := self.parts ++
    (prims.CubeFill fluid (.ofDensity m_deltap rho0) m_deltap true) }
  let self :=
    if wet then
      let self := { self with parts := self.parts ++
        (prims.CubeFill fluid1 (.ofDensity m_deltap rho0) m_deltap true) }
      let self := { self with parts := self.parts ++
        (prims.CubeFill fluid2 (.ofDensity m_deltap rho0) m_deltap true) }
      let self := { self with parts := self.parts ++
        (prims.CubeFill fluid3 (.ofDensity m_deltap rho0) m_deltap true) }
      { self with parts := self.parts ++
        (prims.CubeFill fluid4 (.ofDensity m_deltap rho0) m_deltap true) }
    else self
  (self, self.parts.length + self.boundary_parts.length + self.obstacle_parts.length
    + self.gate_parts.length)

/-! ## Buffer packer -/

/-- The four buffers `copy_to_array` asks the buffer list for. -/
inductive BufferKey where
  | BUFFER_POS
  | BUFFER_HASH
  | BUFFER_VEL
  | BUFFER_INFO
deriving DecidableEq, Repr, Inhabited

export BufferKey (BUFFER_POS BUFFER_HASH BUFFER_VEL BUFFER_INFO)

/-- One subscripted access: the buffer, whether it is a store, the subscript. -/
structure Access where
  buffer : BufferKey
  store : Bool
  index : Int
deriving DecidableEq, Repr, Inhabited

/-- The four arrays behind `BufferList`, and the ghost access log. -/
structure BufferList where
  pos : Nat → float4
  hash : Nat → hashKey
  vel : Nat → float4
  info : Nat → particleinfo
  log : List Access

/-- Store `vel[i] = v`. -/
def BufferList.storeVel (b : BufferList) (i : Nat) (v : float4) : BufferList :=
  { b with vel := Function.update b.vel i v, log := b.log ++ [⟨BUFFER_VEL, true, i⟩] }

/-- Store `info[i] = v`. -/
def BufferList.storeInfo (b : BufferList) (i : Nat) (v : particleinfo) : BufferList :=
  { b with info := Function.update b.info i v, log := b.log ++ [⟨BUFFER_INFO, true, i⟩] }

/-- Store `pos[i] = v`. -/
def BufferList.storePos (b : BufferList) (i : Nat) (v : float4) : BufferList :=
  { b with pos := Function.update b.pos i v, log := b.log ++ [⟨BUFFER_POS, true, i⟩] }

/-- Store `hash[i] = v`. -/
def BufferList.storeHash (b : BufferList) (i : Nat) (v : hashKey) : BufferList :=
  { b with hash := Function.update b.hash i v, log := b.log ++ [⟨BUFFER_HASH, true, i⟩] }

/-- Load of `info[i]`, passed by reference to the hashing routine. -/
def BufferList.loadInfo (b : BufferList) (i : Nat) : BufferList :=
  { b with log := b.log ++ [⟨BUFFER_INFO, false, i⟩] }

/-- Load of `pos[k].w` for the diagnostic output; `k` is a signed value. -/
def BufferList.loadPos (b : BufferList) (k : Int) : BufferList :=
  { b with log := b.log ++ [⟨BUFFER_POS, false, k⟩] }

/-- Counted loop: `n` iterations of `body`, the counter starting at `i`. -/
def forLoop {σ : Type} (body : Nat → σ → σ) : Nat → Nat → σ → σ
  | 0, _, s => s
  | n + 1, i, s => forLoop body n (i + 1) (body i s)

/-- The loop `for (uint i = lo; i < hi; i++) body`. -/
def forRange {σ : Type} (body : Nat → σ → σ) (lo hi : Nat) (s : σ) : σ :=
  forLoop body (hi - lo) lo s

/-- The body the four loops of `copy_to_array` share, for the class stored in
`src` with material `type`, sub-index `obj` and first slot `j`:
`vel[i] = make_float4(0, 0, 0, rho0[0]); info[i] = make_particleinfo(type, obj, i);
calc_localpos_and_hash(src[i-j], info[i], pos[i], hash[i]);`.
The hashing routine is external: it is the argument `calc_localpos_and_hash`,
which returns the values it stores through its two reference arguments. -/
def packBody (calc_localpos_and_hash : Point → particleinfo → float4 × hashKey) (rho0 : ℚ)
    (src : List Point) (type : ParticleType) (obj : Nat) (j : Nat)
    (i : Nat) (b : BufferList) : BufferList :=
  let b := b.storeVel i (make_float4 0 0 0 rho0)
  let b := b.storeInfo i (make_particleinfo type obj i)
  let r := calc_localpos_and_hash (src.getD (i - j) default) (b.info i)
  let b := b.loadInfo i
  let b := b.storePos i r.1
  b.storeHash i r.2

/-- `DamBreakGate::copy_to_array(buffers)`.  The first loop runs from slot 0
and reads `boundary_parts[i]`, so its offset is 0.  The text written to
`std::cout` is not modelled; the load `pos[j-1].w` it prints is recorded in the
log. -/
def DamBreakGate.copy_to_array
    (calc_localpos_and_hash : Point → particleinfo → float4 × hashKey)
    (self : DamBreakGate) (buffers : BufferList) : BufferList :=
  let rho0 := self.m_physparams.rho0 0
  let b := forRange (packBody calc_localpos_and_hash rho0 self.boundary_parts BOUNDPART 0 0)
    0 self.boundary_parts.length buffers
  let j := self.boundary_parts.length
  let b := b.loadPos ((j : Int) - 1)
  let b := forRange (packBody calc_localpos_and_hash rho0 self.gate_parts GATEPART 0 j)
    j (j + self.gate_parts.length) b
  let j := j + self.gate_parts.length
  let b := b.loadPos ((j : Int) - 1)
  let b := forRange (packBody calc_localpos_and_hash rho0 self.obstacle_parts BOUNDPART 1 j)
    j (j + self.obstacle_parts.length) b
  let j := j + self.obstacle_parts.length
  let b := b.loadPos ((j : Int) - 1)
  let b := forRange (packBody calc_localpos_and_hash rho0 self.parts FLUIDPART 0 j)
    j (j + self.parts.length) b
  let j := j + self.parts.length
  b.loadPos ((j : Int) - 1)

/-- The subscripts stored to buffer `k`, in the order of the stores. -/
def storesTo (k : BufferKey) (log : List Access) : List Int :=
  (log.filter (fun a => a.store && decide (a.buffer = k))).map (fun a => a.index)

/-- Number of slots of the four classes together. -/
def DamBreakGate.total (self : DamBreakGate) : Nat :=
  self.boundary_parts.length + self.gate_parts.length + self.obstacle_parts.length
    + self.parts.length

/-- The four classes one after the other, in the order of the packed buffers. -/
def DamBreakGate.packed (self : DamBreakGate) : List Point :=
  self.boundary_parts ++ self.gate_parts ++ self.obstacle_parts ++ self.parts

/-! ## Classes of slots -/

/-- The four particle classes of the scenario. -/
inductive ParticleClass where
  | BOUNDARY
  | GATE
  | OBSTACLE
  | FLUID
deriving DecidableEq, Repr, Inhabited

/-- The class of slot `i`: the class whose loop of `copy_to_array` stores the
slot (first loop `boundary_parts`, second `gate_parts`, third
`obstacle_parts`, fourth `parts`); no class at or above the total count. -/
def DamBreakGate.classOf (self : DamBreakGate) (i : Nat) : Option ParticleClass :=
  if i < self.boundary_parts.length then some .BOUNDARY
  else if i < self.boundary_parts.length + self.gate_parts.length then some .GATE
  else if i < self.boundary_parts.length + self.gate_parts.length
      + self.obstacle_parts.length then some .OBSTACLE
  else if i < self.boundary_parts.length + self.gate_parts.length
      + self.obstacle_parts.length + self.parts.length then some .FLUID
  else none

/-- The material id the loop of a class passes to `make_particleinfo`:
`BOUNDPART` in the first and third loops, `GATEPART` in the second,
`FLUIDPART` in the fourth. -/
def ParticleClass.type : ParticleClass → ParticleType
  | .BOUNDARY => BOUNDPART
  | .GATE => GATEPART
  | .OBSTACLE => BOUNDPART
  | .FLUID => FLUIDPART

/-- The sub-index the loop of a class passes to `make_particleinfo`: 1 in the
third loop, 0 in the others. -/
def ParticleClass.obj : ParticleClass → Nat
  | .BOUNDARY => 0
  | .GATE => 0
  | .OBSTACLE => 1
  | .FLUID => 0

/-! ## Regions as point sets -/

/-- Modelled from the spec: the point set of a region `Cube(origin, vx, vy, vz)`
("an oriented box or plane defined by an origin point and up to three edge
vectors"), the points `origin + a*vx + b*vy + c*vz` with `a, b, c` in `[0, 1]`.
The class `Cube` is declared in `Cube.h`, which is not among the sources.  The
mass of a point is not a coordinate. -/
def Cube.contains (c : Cube) (p : Point) : Prop :=
  ∃ a b g : ℚ, (0 ≤ a ∧ a ≤ 1) ∧ (0 ≤ b ∧ b ≤ 1) ∧ (0 ≤ g ∧ g ≤ 1)
    ∧ p.x = c.origin.x + a * c.vx.x + b * c.vy.x + g * c.vz.x
    ∧ p.y = c.origin.y + a * c.vx.y + b * c.vy.y + g * c.vz.y
    ∧ p.z = c.origin.z + a * c.vx.z + b * c.vy.z + g * c.vz.z

/-- Modelled from the spec: the surface of a region `Cube(origin, vx, vy, vz)`
(the set "border-only" filling works on), the points of the box with one of
the three parameters at an end of `[0, 1]`. -/
def Cube.onBorder (c : Cube) (p : Point) : Prop :=
  ∃ a b g : ℚ, (0 ≤ a ∧ a ≤ 1) ∧ (0 ≤ b ∧ b ≤ 1) ∧ (0 ≤ g ∧ g ≤ 1)
    ∧ (a = 0 ∨ a = 1 ∨ b = 0 ∨ b = 1 ∨ g = 0 ∨ g = 1)
    ∧ p.x = c.origin.x + a * c.vx.x + b * c.vy.x + g * c.vz.x
    ∧ p.y = c.origin.y + a * c.vx.y + b * c.vy.y + g * c.vz.y
    ∧ p.z = c.origin.z + a * c.vx.z + b * c.vy.z + g * c.vz.z

/-- Modelled from the spec: the point set of a region `Rect(origin, vx, vy)`,
the points `origin + a*vx + b*vy` with `a, b` in `[0, 1]`.  The class `Rect` is
declared in `Rect.h`, which is not among the sources. -/
def Rect.contains (r : Rect) (p : Point) : Prop :=
  ∃ a b : ℚ, (0 ≤ a ∧ a ≤ 1) ∧ (0 ≤ b ∧ b ≤ 1)
    ∧ p.x = r.origin.x + a * r.vx.x + b * r.vy.x
    ∧ p.y = r.origin.y + a * r.vx.y + b * r.vy.y
    ∧ p.z = r.origin.z + a * r.vx.z + b * r.vy.z

/-- The local `gate` of `fill_parts`. -/
def DamBreakGate.gate (self : DamBreakGate) : Rect :=
  ⟨(Point.ofFloat3 (self.m_mbcallbackdata 0).origin).add (Point.mk3 ORIGIN_X ORIGIN_Y ORIGIN_Z),
    ⟨0, 0.67, 0⟩, ⟨0, 0, 0.4⟩⟩

/-- The local `fluid` of `fill_parts`. -/
def DamBreakGate.fluid (self : DamBreakGate) : Cube :=
  ⟨Point.mk3 (self.m_physparams.r0 + ORIGIN_X) (self.m_physparams.r0 + ORIGIN_Y)
      (self.m_physparams.r0 + ORIGIN_Z),
    ⟨0.4, 0, 0⟩, ⟨0, 0.67 - 2 * self.m_physparams.r0, 0⟩, ⟨0, 0, 0.4 - self.m_physparams.r0⟩⟩

/-- The local `fluid1` of `fill_parts`, as assigned when `wet` is set. -/
def DamBreakGate.fluid1 (self : DamBreakGate) : Cube :=
  ⟨Point.mk3 (0.4 + self.m_deltap + self.m_physparams.r0 + ORIGIN_X)
      (self.m_physparams.r0 + ORIGIN_Y) (self.m_physparams.r0 + ORIGIN_Z),
    ⟨0.5 - self.m_deltap - 2 * self.m_physparams.r0, 0, 0⟩,
    ⟨0, 0.67 - 2 * self.m_physparams.r0, 0⟩, ⟨0, 0, 0.03⟩⟩

/-- The local `fluid2` of `fill_parts`, as assigned when `wet` is set. -/
def DamBreakGate.fluid2 (self : DamBreakGate) : Cube :=
  ⟨Point.mk3 (1.02 + self.m_physparams.r0 + ORIGIN_X) (self.m_physparams.r0 + ORIGIN_Y)
      (self.m_physparams.r0 + ORIGIN_Z),
    ⟨0.58 - 2 * self.m_physparams.r0, 0, 0⟩,
    ⟨0, 0.67 - 2 * self.m_physparams.r0, 0⟩, ⟨0, 0, 0.03⟩⟩

/-- The local `fluid3` of `fill_parts`, as assigned when `wet` is set. -/
def DamBreakGate.fluid3 (self : DamBreakGate) : Cube :=
  ⟨Point.mk3 (0.9 + ORIGIN_X) (self.m_deltap + ORIGIN_Y) (self.m_physparams.r0 + ORIGIN_Z),
    ⟨0.12, 0, 0⟩, ⟨0, 0.24 - 2 * self.m_physparams.r0, 0⟩, ⟨0, 0, 0.03⟩⟩

/-- The local `fluid4` of `fill_parts`, as assigned when `wet` is set. -/
def DamBreakGate.fluid4 (self : DamBreakGate) : Cube :=
  ⟨Point.mk3 (0.9 + ORIGIN_X) (0.36 + self.m_deltap + ORIGIN_Y)
      (self.m_physparams.r0 + ORIGIN_Z),
    ⟨0.12, 0, 0⟩, ⟨0, 0.31 - 2 * self.m_physparams.r0, 0⟩, ⟨0, 0, 0.03⟩⟩

/-- Two regions share no point. -/
def Cube.disjoint (c d : Cube) : Prop := ∀ p : Point, ¬ (c.contains p ∧ d.contains p)

/-! ## Example data -/

/-- An object as the base-class constructor may leave it: everything zero,
all lists empty. -/
def blankProblem : DamBreakGate where
  m_deltap := 0
  m_physparams := ⟨0, fun _ => 0⟩
  m_mbcallbackdata := fun _ => ⟨FLUIDPART, ⟨0, 0, 0⟩, ⟨0, 0, 0⟩, ⟨0, 0, 0⟩, 0, 0⟩
  experiment_box := default
  obstacle := default
  parts := []
  boundary_parts := []
  obstacle_parts := []
  gate_parts := []

/-- A small object with two boundary, one gate, one obstacle and two fluid
particles. -/
def sampleProblem : DamBreakGate :=
  { DamBreakGate.construct blankProblem with
    boundary_parts := [⟨0, 0, 0, 3⟩, ⟨1, 0, 0, 3⟩]
    gate_parts := [⟨1/2, 0, 0, 2⟩]
    obstacle_parts := [⟨1, 1/4, 0, 3⟩]
    parts := [⟨1/4, 1/4, 1/4, 5⟩, ⟨1/4, 1/2, 1/4, 5⟩] }

/-- Empty buffers: every slot zero, the log empty. -/
def blankBuffers : BufferList where
  pos := fun _ => ⟨0, 0, 0, 0⟩
  hash := fun _ => 0
  vel := fun _ => ⟨0, 0, 0, 0⟩
  info := fun _ => ⟨FLUIDPART, 0, 0⟩
  log := []

/-- Stand-ins for the external fill primitives: each puts one particle at the
origin of the region. -/
def samplePrims : FillPrimitives where
  CubeFillBorder := fun c _ _ _ => [c.origin]
  CubeFill := fun c _ _ _ => [c.origin]
  RectFill := fun r _ _ _ => [r.origin]

/-- A stand-in for the external hashing routine: keeps the coordinates and the
mass, and uses the global index as the key. -/
def sampleCalc (p : Point) (info : particleinfo) : float4 × hashKey :=
  (⟨p.x, p.y, p.z, p.mass⟩, info.id)

/-- The sample object with its boundary list emptied: no boundary particle,
one gate, one obstacle and two fluid particles. -/
def emptyBoundaryProblem : DamBreakGate :=
  { sampleProblem with boundary_parts := [] }

/-! ## Closed forms used by the proofs -/

/-- Velocity along z after step `n` of the reference run
(`tstart = 1/5`, `tend = 3/5`, `dt = 1/1000`). -/
def rampVel (n : Nat) : ℚ :=
  if 200 ≤ n ∧ n < 600 then 4 * ((n : ℚ) / 1000 - 1 / 5) else 0

/-- Displacement along z after step `n` of the reference run. -/
def rampDisp (n : Nat) : ℚ :=
  if n < 200 then 0
  else if n < 600 then 2 * ((n : ℚ) - 200) * ((n : ℚ) - 199) / 1000000
  else 399 / 1250

/-- The accesses of one iteration of a packing loop, in program order. -/
def bodyLog (i : Nat) : List Access :=
  [⟨BUFFER_VEL, true, i⟩, ⟨BUFFER_INFO, true, i⟩, ⟨BUFFER_INFO, false, i⟩,
   ⟨BUFFER_POS, true, i⟩, ⟨BUFFER_HASH, true, i⟩]

/-- The accesses of `n` iterations of a packing loop starting at slot `i`. -/
def classLog : Nat → Nat → List Access
  | _, 0 => []
  | i, n + 1 => bodyLog i ++ classLog (i + 1) n

/-! ## Gate kinematics: lemmas -/

/-- The entry returned by `mb_callback` is entry 0 of the new state. -/
theorem mb_callback_fst_zero (self : DamBreakGate) (t dt : ℚ) (i : Int) :
    (self.mb_callback t dt i).1.m_mbcallbackdata 0 = (self.mb_callback t dt i).2 := rfl

/-- The entry returned inside the active window. -/
theorem mb_callback_snd_active (self : DamBreakGate) (t dt : ℚ) (i : Int)
    (h : (self.m_mbcallbackdata 0).tstart ≤ t ∧ t < (self.m_mbcallbackdata 0).tend) :
    (self.mb_callback t dt i).2 =
      { self.m_mbcallbackdata 0 with
        vel := ⟨0, 0, 4 * (t - (self.m_mbcallbackdata 0).tstart)⟩
        disp := ⟨(self.m_mbcallbackdata 0).disp.x + 0 * dt,
                 (self.m_mbcallbackdata 0).disp.y + 0 * dt,
                 (self.m_mbcallbackdata 0).disp.z
                   + 4 * (t - (self.m_mbcallbackdata 0).tstart) * dt⟩ } := by
  simp [DamBreakGate.mb_callback, h, make_float3, float3.add, float3.mul]

/-- The entry returned outside the active window. -/
theorem mb_callback_snd_idle (self : DamBreakGate) (t dt : ℚ) (i : Int)
    (h : ¬ ((self.m_mbcallbackdata 0).tstart ≤ t ∧ t < (self.m_mbcallbackdata 0).tend)) :
    (self.mb_callback t dt i).2 = { self.m_mbcallbackdata 0 with vel := ⟨0, 0, 0⟩ } := by
  simp [DamBreakGate.mb_callback, h, make_float3_1]

/-- Values of the sample object's gate entry. -/
theorem sampleProblem_gate :
    sampleProblem.m_mbcallbackdata 0
      = ⟨GATEPART, ⟨43/100, 0, 0⟩, ⟨0, 0, 0⟩, ⟨0, 0, 0⟩, 1/5, 3/5⟩ := by
  simp [sampleProblem, DamBreakGate.construct, DamBreakGate.mb_callback, blankProblem,
    make_float3, make_float3_1]
  norm_num

/-- A call changes neither `tstart` nor `tend`. -/
theorem mb_callback_window (self : DamBreakGate) (t dt : ℚ) (i : Int) :
    ((self.mb_callback t dt i).1.m_mbcallbackdata 0).tstart = (self.m_mbcallbackdata 0).tstart
      ∧ ((self.mb_callback t dt i).1.m_mbcallbackdata 0).tend
          = (self.m_mbcallbackdata 0).tend := by
  rw [mb_callback_fst_zero]
  by_cases h : (self.m_mbcallbackdata 0).tstart ≤ t ∧ t < (self.m_mbcallbackdata 0).tend
  · rw [mb_callback_snd_active self t dt i h]; exact ⟨rfl, rfl⟩
  · rw [mb_callback_snd_idle self t dt i h]; exact ⟨rfl, rfl⟩

/-- Running two sequences of calls one after the other. -/
theorem mb_run_append (self : DamBreakGate) (a b : List (ℚ × ℚ × Int)) :
    self.mb_run (a ++ b) = (self.mb_run a).mb_run b := by
  induction a generalizing self with
  | nil => rfl
  | cons c rest ih =>
    obtain ⟨t, dt, i⟩ := c
    simp only [List.cons_append, DamBreakGate.mb_run]
    exact ih _

/-- A sequence of calls changes neither `tstart` nor `tend`. -/
theorem mb_run_window (self : DamBreakGate) (calls : List (ℚ × ℚ × Int)) :
    ((self.mb_run calls).m_mbcallbackdata 0).tstart = (self.m_mbcallbackdata 0).tstart
      ∧ ((self.mb_run calls).m_mbcallbackdata 0).tend = (self.m_mbcallbackdata 0).tend := by
  induction calls generalizing self with
  | nil => exact ⟨rfl, rfl⟩
  | cons c rest ih =>
    obtain ⟨t, dt, i⟩ := c
    simp only [DamBreakGate.mb_run]
    have h1 := ih (self.mb_callback t dt i).1
    have h2 := mb_callback_window self t dt i
    exact ⟨h1.1.trans h2.1, h1.2.trans h2.2⟩

/-- Calls that all come at or after `tend` leave the displacement alone. -/
theorem mb_run_idle_disp (self : DamBreakGate) (calls : List (ℚ × ℚ × Int))
    (h : ∀ c ∈ calls, (self.m_mbcallbackdata 0).tend ≤ c.1) :
    ((self.mb_run calls).m_mbcallbackdata 0).disp = (self.m_mbcallbackdata 0).disp := by
  induction calls generalizing self with
  | nil => rfl
  | cons c rest ih =>
    obtain ⟨t, dt, i⟩ := c
    simp only [DamBreakGate.mb_run]
    have ht : (self.m_mbcallbackdata 0).tend ≤ t := h (t, dt, i) (List.mem_cons_self _ _)
    have hidle : ¬ ((self.m_mbcallbackdata 0).tstart ≤ t
        ∧ t < (self.m_mbcallbackdata 0).tend) := fun hc => absurd hc.2 (not_lt.mpr ht)
    have hrest : ∀ c ∈ rest,
        (((self.mb_callback t dt i).1).m_mbcallbackdata 0).tend ≤ c.1 := by
      intro c hc
      rw [(mb_callback_window self t dt i).2]
      exact h c (List.mem_cons_of_mem _ hc)
    rw [ih _ hrest, mb_callback_fst_zero, mb_callback_snd_idle self t dt i hidle]

/-- The calls up to step `n + 1` are the calls up to step `n` and one more. -/
theorem fixedStepCalls_succ (dt : ℚ) (n : Nat) :
    fixedStepCalls dt (n + 1) = fixedStepCalls dt n ++ [(((n + 1 : Nat) : ℚ) * dt, dt, 0)] := by
  simp [fixedStepCalls, List.range_succ]

/-- The state after step `n + 1` of a fixed-step run. -/
theorem mb_run_fixedStep_succ (self : DamBreakGate) (dt : ℚ) (n : Nat) :
    self.mb_run (fixedStepCalls dt (n + 1))
      = ((self.mb_run (fixedStepCalls dt n)).mb_callback (((n + 1 : Nat) : ℚ) * dt) dt 0).1 := by
  rw [fixedStepCalls_succ, mb_run_append]
  rfl

/-- Closed form of the reference run: the gate entry after step `n`. -/
theorem mb_run_reference (self : DamBreakGate)
    (hs : (self.m_mbcallbackdata 0).tstart = 1 / 5)
    (he : (self.m_mbcallbackdata 0).tend = 3 / 5)
    (hd : (self.m_mbcallbackdata 0).disp = ⟨0, 0, 0⟩) (n : Nat) :
    ((self.mb_run (fixedStepCalls (1 / 1000) n)).m_mbcallbackdata 0).vel = ⟨0, 0, rampVel n⟩
      ∧ ((self.mb_run (fixedStepCalls (1 / 1000) n)).m_mbcallbackdata 0).disp
          = ⟨0, 0, rampDisp n⟩ := by
  induction n with
  | zero =>
    have hidle : ¬ ((self.m_mbcallbackdata 0).tstart ≤ ((0 : Nat) : ℚ) * (1 / 1000)
        ∧ ((0 : Nat) : ℚ) * (1 / 1000) < (self.m_mbcallbackdata 0).tend) := by
      rw [hs]; norm_num
    have h0 : self.mb_run (fixedStepCalls (1 / 1000) 0)
        = (self.mb_callback (((0 : Nat) : ℚ) * (1 / 1000)) (1 / 1000) 0).1 := rfl
    rw [h0, mb_callback_fst_zero, mb_callback_snd_idle self _ _ _ hidle]
    simp [rampVel, rampDisp, hd]
  | succ n ih =>
    obtain ⟨_, ihd⟩ := ih
    have hw := mb_run_window self (fixedStepCalls (1 / 1000) n)
    rw [hs, he] at hw
    rw [mb_run_fixedStep_succ, mb_callback_fst_zero]
    by_cases hact : 200 ≤ n + 1 ∧ n + 1 < 600
    · have hq1 : (200 : ℚ) ≤ ((n + 1 : Nat) : ℚ) := by exact_mod_cast hact.1
      have hq2 : ((n + 1 : Nat) : ℚ) < 600 := by exact_mod_cast hact.2
      have hin : ((self.mb_run (fixedStepCalls (1 / 1000) n)).m_mbcallbackdata 0).tstart
            ≤ ((n + 1 : Nat) : ℚ) * (1 / 1000)
          ∧ ((n + 1 : Nat) : ℚ) * (1 / 1000)
            < ((self.mb_run (fixedStepCalls (1 / 1000) n)).m_mbcallbackdata 0).tend := by
        rw [hw.1, hw.2]; constructor <;> linarith
      rw [mb_callback_snd_active _ _ _ _ hin, ihd, hw.1]
      have hv : rampVel (n + 1) = 4 * (((n + 1 : Nat) : ℚ) * (1 / 1000) - 1 / 5) := by
        rw [rampVel, if_pos hact]; ring
      have hdz : rampDisp (n + 1)
          = rampDisp n + 4 * (((n + 1 : Nat) : ℚ) * (1 / 1000) - 1 / 5) * (1 / 1000) := by
        have h1 : ¬ (n + 1 < 200) := by omega
        rw [rampDisp, if_neg h1, if_pos hact.2, rampDisp]
        by_cases h2 : n < 200
        · have h3 : n = 199 := by omega
          subst h3
          norm_num
        · have h3 : n < 600 := by omega
          rw [if_neg h2, if_pos h3]
          push_cast
          ring
      simp only [hv, hdz]
      norm_num
    · have hout : ¬ (((self.mb_run (fixedStepCalls (1 / 1000) n)).m_mbcallbackdata 0).tstart
            ≤ ((n + 1 : Nat) : ℚ) * (1 / 1000)
          ∧ ((n + 1 : Nat) : ℚ) * (1 / 1000)
            < ((self.mb_run (fixedStepCalls (1 / 1000) n)).m_mbcallbackdata 0).tend) := by
        rw [hw.1, hw.2]
        rintro ⟨h1, h2⟩
        apply hact
        have h1q : (200 : ℚ) ≤ ((n + 1 : Nat) : ℚ) := by linarith
        have h2q : ((n + 1 : Nat) : ℚ) < 600 := by linarith
        exact ⟨by exact_mod_cast h1q, by exact_mod_cast h2q⟩
      rw [mb_callback_snd_idle _ _ _ _ hout, ihd]
      have hv : rampVel (n + 1) = 0 := by rw [rampVel, if_neg hact]
      have hdz : rampDisp (n + 1) = rampDisp n := by
        rw [rampDisp, rampDisp]
        by_cases h1 : n + 1 < 200
        · have h2 : n < 200 := by omega
          rw [if_pos h1, if_pos h2]
        · have h2 : ¬ (n + 1 < 600) := by omega
          have h3 : ¬ (n < 200) := by omega
          rw [if_neg h1, if_neg h2, if_neg h3]
          by_cases h4 : n < 600
          · have h5 : n = 599 := by omega
            subst h5
            norm_num
          · rw [if_neg h4]
      simp [hv, hdz]

/-- The forward sum of `velocity * dt` over the first `m` active steps of the
reference run. -/
theorem ramp_forward_sum (m : Nat) :
    ∑ k in Finset.Ico 200 (200 + m), 4 * ((k : ℚ) * (1 / 1000) - 1 / 5) * (1 / 1000)
      = 2 * (m : ℚ) * ((m : ℚ) - 1) / 1000000 := by
  induction m with
  | zero => simp
  | succ m ih =>
    rw [← Nat.add_assoc, Finset.sum_Ico_succ_top (by omega), ih]
    push_cast
    ring

/-! ## Gate kinematics: the claims -/

/-- C5: a call `mb_callback(t, dt, i)` with `t < tstart` or `t >= tend` leaves
the velocity exactly zero and the accumulated displacement as it was before
the call, both in the entry returned and in the entry stored in the object. -/
theorem mb_callback_outside_window (self : DamBreakGate) (t dt : ℚ) (i : Int)
    (h : t < (self.m_mbcallbackdata 0).tstart ∨ t ≥ (self.m_mbcallbackdata 0).tend) :
    (self.mb_callback t dt i).2.vel = ⟨0, 0, 0⟩
      ∧ (self.mb_callback t dt i).2.disp = (self.m_mbcallbackdata 0).disp
      ∧ ((self.mb_callback t dt i).1.m_mbcallbackdata 0).vel = ⟨0, 0, 0⟩
      ∧ ((self.mb_callback t dt i).1.m_mbcallbackdata 0).disp
          = (self.m_mbcallbackdata 0).disp := by
  have hidle : ¬ ((self.m_mbcallbackdata 0).tstart ≤ t ∧ t < (self.m_mbcallbackdata 0).tend) := by
    rintro ⟨h1, h2⟩
    rcases h with h | h
    · exact absurd h1 (not_le.mpr h)
    · exact absurd h2 (not_lt.mpr h)
  rw [mb_callback_fst_zero, mb_callback_snd_idle self t dt i hidle]
  exact ⟨rfl, rfl, rfl, rfl⟩

/-- C5 at the sample object, after the window has closed (`t = 7/10`), with a
displacement accumulated by an earlier active call. -/
theorem mb_callback_outside_window_witness :
    ((7/10 : ℚ) < (((sampleProblem.mb_callback (1/2) (1/10) 0).1).m_mbcallbackdata 0).tstart
        ∨ (7/10 : ℚ) ≥ (((sampleProblem.mb_callback (1/2) (1/10) 0).1).m_mbcallbackdata 0).tend)
      ∧ ((((sampleProblem.mb_callback (1/2) (1/10) 0).1).mb_callback (7/10) (1/10) 0).2.vel
            = ⟨0, 0, 0⟩
        ∧ (((sampleProblem.mb_callback (1/2) (1/10) 0).1).mb_callback (7/10) (1/10) 0).2.disp
            = ⟨0, 0, 3/25⟩) := by
  have hw : (7/10 : ℚ) < (((sampleProblem.mb_callback (1/2) (1/10) 0).1).m_mbcallbackdata 0).tstart
      ∨ (7/10 : ℚ) ≥ (((sampleProblem.mb_callback (1/2) (1/10) 0).1).m_mbcallbackdata 0).tend := by
    right
    rw [mb_callback_fst_zero, mb_callback_snd_active _ _ _ _ (by
      rw [sampleProblem_gate]; norm_num)]
    rw [sampleProblem_gate]; norm_num
  have key := mb_callback_outside_window ((sampleProblem.mb_callback (1/2) (1/10) 0).1)
    (7/10) (1/10) 0 hw
  refine ⟨hw, key.1, ?_⟩
  rw [key.2.1, mb_callback_fst_zero, mb_callback_snd_active _ _ _ _ (by
      rw [sampleProblem_gate]; norm_num)]
  rw [sampleProblem_gate]; norm_num

/-- C6: a call `mb_callback(t, dt, i)` with `tstart <= t < tend` sets the
velocity to `(0, 0, 4*(t - tstart))` and the displacement to the previous
displacement plus the new velocity times the `dt` of the call; only the z
component of the displacement changes, by `4*(t - tstart)*dt`. -/
theorem mb_callback_inside_window (self : DamBreakGate) (t dt : ℚ) (i : Int)
    (h : (self.m_mbcallbackdata 0).tstart ≤ t ∧ t < (self.m_mbcallbackdata 0).tend) :
    (self.mb_callback t dt i).2.vel = ⟨0, 0, 4 * (t - (self.m_mbcallbackdata 0).tstart)⟩
      ∧ (self.mb_callback t dt i).2.disp
          = (self.m_mbcallbackdata 0).disp.add ((self.mb_callback t dt i).2.vel.mul dt)
      ∧ (self.mb_callback t dt i).2.disp
          = ⟨(self.m_mbcallbackdata 0).disp.x, (self.m_mbcallbackdata 0).disp.y,
             (self.m_mbcallbackdata 0).disp.z
               + 4 * (t - (self.m_mbcallbackdata 0).tstart) * dt⟩
      ∧ (self.mb_callback t dt i).1.m_mbcallbackdata 0 = (self.mb_callback t dt i).2 := by
  rw [mb_callback_fst_zero, mb_callback_snd_active self t dt i h]
  refine ⟨rfl, ?_, ?_, rfl⟩
  · simp [float3.add, float3.mul]
  · simp

/-- C6 at the sample object: `t = 1/2`, `dt = 1/10` gives velocity `6/5` and
displacement `3/25` along z. -/
theorem mb_callback_inside_window_witness :
    ((sampleProblem.m_mbcallbackdata 0).tstart ≤ (1/2 : ℚ)
        ∧ (1/2 : ℚ) < (sampleProblem.m_mbcallbackdata 0).tend)
      ∧ (sampleProblem.mb_callback (1/2) (1/10) 0).2.vel = ⟨0, 0, 6/5⟩
      ∧ (sampleProblem.mb_callback (1/2) (1/10) 0).2.disp = ⟨0, 0, 3/25⟩ := by
  have hw : (sampleProblem.m_mbcallbackdata 0).tstart ≤ (1/2 : ℚ)
      ∧ (1/2 : ℚ) < (sampleProblem.m_mbcallbackdata 0).tend := by
    rw [sampleProblem_gate]; norm_num
  have key := mb_callback_inside_window sampleProblem (1/2) (1/10) 0 hw
  refine ⟨hw, ?_, ?_⟩
  · rw [key.1, sampleProblem_gate]; norm_num
  · rw [key.2.2.1, sampleProblem_gate]; norm_num

/-- C9: for a call with `dt >= 0` the z component of the displacement after the
call is at least its value before the call, and it is strictly greater exactly
when `tstart < t < tend` and `dt > 0`. -/
theorem mb_callback_disp_monotone (self : DamBreakGate) (t dt : ℚ) (i : Int)
    (hdt : 0 ≤ dt) :
    (self.m_mbcallbackdata 0).disp.z ≤ (self.mb_callback t dt i).2.disp.z
      ∧ ((self.m_mbcallbackdata 0).disp.z < (self.mb_callback t dt i).2.disp.z
          ↔ (self.m_mbcallbackdata 0).tstart < t ∧ t < (self.m_mbcallbackdata 0).tend
              ∧ 0 < dt) := by
  by_cases h : (self.m_mbcallbackdata 0).tstart ≤ t ∧ t < (self.m_mbcallbackdata 0).tend
  · rw [mb_callback_snd_active self t dt i h]
    have h0 : 0 ≤ t - (self.m_mbcallbackdata 0).tstart := sub_nonneg.mpr h.1
    have hp : 0 ≤ 4 * (t - (self.m_mbcallbackdata 0).tstart) * dt :=
      mul_nonneg (mul_nonneg (by norm_num) h0) hdt
    refine ⟨by simpa using hp, ?_⟩
    simp only [lt_add_iff_pos_right]
    constructor
    · intro hpos
      have hts : (self.m_mbcallbackdata 0).tstart ≠ t := by
        intro heq
        rw [heq] at hpos
        simp at hpos
      have hdt0 : dt ≠ 0 := by
        intro heq
        rw [heq] at hpos
        simp at hpos
      exact ⟨lt_of_le_of_ne h.1 hts, h.2, lt_of_le_of_ne hdt (Ne.symm hdt0)⟩
    · rintro ⟨h1, _, h3⟩
      exact mul_pos (mul_pos (by norm_num) (sub_pos.mpr h1)) h3
  · rw [mb_callback_snd_idle self t dt i h]
    refine ⟨le_refl _, ?_⟩
    constructor
    · intro hlt
      exact absurd hlt (lt_irrefl _)
    · rintro ⟨h1, h2, _⟩
      exact absurd ⟨le_of_lt h1, h2⟩ h

/-- C9 at the sample object: the call `t = 1/2`, `dt = 1/10` moves the z
displacement from `0` up to `3/25`. -/
theorem mb_callback_disp_monotone_witness :
    (0 : ℚ) ≤ 1 / 10
      ∧ (sampleProblem.m_mbcallbackdata 0).disp.z
          ≤ (sampleProblem.mb_callback (1/2) (1/10) 0).2.disp.z
      ∧ (sampleProblem.m_mbcallbackdata 0).disp.z = 0
      ∧ (sampleProblem.mb_callback (1/2) (1/10) 0).2.disp.z = 3 / 25 := by
  refine ⟨by norm_num,
    (mb_callback_disp_monotone sampleProblem (1/2) (1/10) 0 (by norm_num)).1, ?_, ?_⟩
  · rw [sampleProblem_gate]
  · rw [mb_callback_snd_active _ _ _ _ (by rw [sampleProblem_gate]; norm_num),
      sampleProblem_gate]
    norm_num

/-- C8: in a sequence of calls with non-decreasing times, once a call has been
made with `t >= tend` the accumulated displacement is the same after every
later call, whatever `dt` those calls pass. -/
theorem mb_run_frozen_after_tend (self : DamBreakGate) (pre later : List (ℚ × ℚ × Int))
    (t0 dt0 : ℚ) (i0 : Int)
    (hmono : List.Chain' (· ≤ ·) ((pre ++ (t0, dt0, i0) :: later).map (fun c => c.1)))
    (hend : (self.m_mbcallbackdata 0).tend ≤ t0) (k : Nat) :
    ((self.mb_run (pre ++ (t0, dt0, i0) :: later.take k)).m_mbcallbackdata 0).disp
      = ((self.mb_run (pre ++ [(t0, dt0, i0)])).m_mbcallbackdata 0).disp := by
  have hsplit : pre ++ (t0, dt0, i0) :: later.take k
      = (pre ++ [(t0, dt0, i0)]) ++ later.take k := by simp
  rw [hsplit, mb_run_append]
  apply mb_run_idle_disp
  intro c hc
  rw [(mb_run_window self _).2]
  have hc2 : c ∈ later := List.mem_of_mem_take hc
  rw [List.map_append] at hmono
  have htail : List.Chain' (· ≤ ·) (((t0, dt0, i0) :: later).map (fun c => c.1)) :=
    hmono.right_of_append
  have hpw := List.chain'_iff_pairwise.mp htail
  rw [List.map_cons, List.pairwise_cons] at hpw
  exact le_trans hend (hpw.1 c.1 (List.mem_map_of_mem _ hc2))

/-- C8 at the sample object: calls at `1/2, 7/10, 7/10, 9/10` with step sizes
`1/10, 1/10, 5, 0`; after the first call at `7/10` the displacement stays. -/
theorem mb_run_frozen_after_tend_witness :
    List.Chain' (· ≤ ·)
        (([((1/2 : ℚ), (1/10 : ℚ), (0 : Int))] ++ (7/10, 1/10, 0) :: [(7/10, 5, 0), (9/10, 0, 0)]).map
          (fun c : ℚ × ℚ × Int => c.1))
      ∧ (sampleProblem.m_mbcallbackdata 0).tend ≤ 7 / 10
      ∧ ((sampleProblem.mb_run ([((1/2 : ℚ), (1/10 : ℚ), (0 : Int))]
            ++ (7/10, 1/10, 0) :: [(7/10, 5, 0), (9/10, 0, 0)].take 2)).m_mbcallbackdata 0).disp
          = ((sampleProblem.mb_run ([((1/2 : ℚ), (1/10 : ℚ), (0 : Int))]
              ++ [(7/10, 1/10, 0)])).m_mbcallbackdata 0).disp := by
  have h1 : List.Chain' (· ≤ ·)
      (([((1/2 : ℚ), (1/10 : ℚ), (0 : Int))] ++ (7/10, 1/10, 0) :: [(7/10, 5, 0), (9/10, 0, 0)]).map
        (fun c : ℚ × ℚ × Int => c.1)) := by
    simp; norm_num
  have h2 : (sampleProblem.m_mbcallbackdata 0).tend ≤ 7 / 10 := by
    rw [sampleProblem_gate]; norm_num
  exact ⟨h1, h2, mb_run_frozen_after_tend sampleProblem _ _ (7/10) (1/10) 0 h1 h2 2⟩

/-- C7: the reference run.  From zero displacement, with `tstart = 0.2`,
`tend = 0.6` and rate 4, the calls `mb_callback(n * 0.001, 0.001, 0)` for
`n = 0, 1, 2, ...` (in particular up to `n = 1000`) leave, after call `n`: zero
velocity when `n < 200` or `n >= 600`; velocity `(0, 0, 4*(t_n - 0.2))` when
`200 <= n < 600`, which is `1.596 < 1.6` at `n = 599`; and, for every
`n >= 599`, a z displacement equal to the forward sum of `velocity * dt` over
the active steps `200 .. 599`, which is `0.3192`. -/
theorem mb_run_reference_scenario (self : DamBreakGate)
    (hs : (self.m_mbcallbackdata 0).tstart = 0.2)
    (he : (self.m_mbcallbackdata 0).tend = 0.6)
    (hd : (self.m_mbcallbackdata 0).disp = ⟨0, 0, 0⟩) (n : Nat) :
    (n < 200 ∨ 600 ≤ n →
        ((self.mb_run (fixedStepCalls 0.001 n)).m_mbcallbackdata 0).vel = ⟨0, 0, 0⟩)
      ∧ (200 ≤ n ∧ n < 600 →
        ((self.mb_run (fixedStepCalls 0.001 n)).m_mbcallbackdata 0).vel
          = ⟨0, 0, 4 * ((n : ℚ) * 0.001 - 0.2)⟩)
      ∧ (n = 599 →
        ((self.mb_run (fixedStepCalls 0.001 n)).m_mbcallbackdata 0).vel.z = 1.596
          ∧ ((self.mb_run (fixedStepCalls 0.001 n)).m_mbcallbackdata 0).vel.z < 1.6)
      ∧ (599 ≤ n →
        ((self.mb_run (fixedStepCalls 0.001 n)).m_mbcallbackdata 0).disp.z
            = ∑ k in Finset.Ico (200 : Nat) 600, 4 * ((k : ℚ) * 0.001 - 0.2) * 0.001
          ∧ ((self.mb_run (fixedStepCalls 0.001 n)).m_mbcallbackdata 0).disp.z = 0.3192) := by
  have e1 : (0.001 : ℚ) = 1 / 1000 := by norm_num
  have e2 : (0.2 : ℚ) = 1 / 5 := by norm_num
  have e3 : (0.6 : ℚ) = 3 / 5 := by norm_num
  rw [e2] at hs
  rw [e3] at he
  rw [e1, e2]
  obtain ⟨hv, hdz⟩ := mb_run_reference self hs he hd n
  have hsum : ∑ k in Finset.Ico (200 : Nat) 600, 4 * ((k : ℚ) * (1 / 1000) - 1 / 5) * (1 / 1000)
      = 399 / 1250 := by
    have h := ramp_forward_sum 400
    norm_num at h
    rw [h]
  rw [hv, hdz, hsum]
  refine ⟨?_, ?_, ?_, ?_⟩
  · intro h
    have hn : ¬ (200 ≤ n ∧ n < 600) := by omega
    simp [rampVel, hn]
  · intro h
    simp only [rampVel, if_pos h]
    congr 1
    ring
  · intro h
    subst h
    norm_num [rampVel]
  · intro h
    have h1 : ¬ (n < 200) := by omega
    simp only [rampDisp, if_neg h1]
    by_cases h2 : n < 600
    · have h3 : n = 599 := by omega
      subst h3
      norm_num
    · rw [if_neg h2]
      norm_num

/-- C7 at the sample object, whose constructor sets `tstart = 0.2` and
`tend = 0.6`: the state after the call at `n = 1000`. -/
theorem mb_run_reference_scenario_witness :
    (sampleProblem.m_mbcallbackdata 0).tstart = 0.2
      ∧ (sampleProblem.m_mbcallbackdata 0).tend = 0.6
      ∧ (sampleProblem.m_mbcallbackdata 0).disp = ⟨0, 0, 0⟩
      ∧ ((sampleProblem.mb_run (fixedStepCalls 0.001 1000)).m_mbcallbackdata 0).vel = ⟨0, 0, 0⟩
      ∧ ((sampleProblem.mb_run (fixedStepCalls 0.001 1000)).m_mbcallbackdata 0).disp.z
          = 0.3192 := by
  have h1 : (sampleProblem.m_mbcallbackdata 0).tstart = 0.2 := by
    rw [sampleProblem_gate]; norm_num
  have h2 : (sampleProblem.m_mbcallbackdata 0).tend = 0.6 := by
    rw [sampleProblem_gate]; norm_num
  have h3 : (sampleProblem.m_mbcallbackdata 0).disp = ⟨0, 0, 0⟩ := by
    rw [sampleProblem_gate]
  have key := mb_run_reference_scenario sampleProblem h1 h2 h3 1000
  exact ⟨h1, h2, h3, key.1 (by omega), (key.2.2.2 (by omega)).2⟩

/-! ## Buffer packer: lemmas -/

/-- One iteration of a packing loop, field by field. -/
theorem packBody_eq (hashfn : Point → particleinfo → float4 × hashKey) (rho0 : ℚ)
    (src : List Point) (type : ParticleType) (obj j i : Nat) (b : BufferList) :
    packBody hashfn rho0 src type obj j i b =
      { pos := Function.update b.pos i
          (hashfn (src.getD (i - j) default) (make_particleinfo type obj i)).1
        hash := Function.update b.hash i
          (hashfn (src.getD (i - j) default) (make_particleinfo type obj i)).2
        vel := Function.update b.vel i (make_float4 0 0 0 rho0)
        info := Function.update b.info i (make_particleinfo type obj i)
        log := b.log ++ bodyLog i } := by
  simp [packBody, BufferList.storeVel, BufferList.storeInfo, BufferList.loadInfo,
    BufferList.storePos, BufferList.storeHash, bodyLog]

/-- A whole packing loop, field by field: the slots `[i, i + n)` receive the
values of the class, every other slot keeps its value. -/
theorem forLoop_packBody (hashfn : Point → particleinfo → float4 × hashKey) (rho0 : ℚ)
    (src : List Point) (type : ParticleType) (obj j : Nat) (n i : Nat) (b : BufferList) :
    forLoop (packBody hashfn rho0 src type obj j) n i b =
      { pos := fun k => if i ≤ k ∧ k < i + n
          then (hashfn (src.getD (k - j) default) (make_particleinfo type obj k)).1 else b.pos k
        hash := fun k => if i ≤ k ∧ k < i + n
          then (hashfn (src.getD (k - j) default) (make_particleinfo type obj k)).2 else b.hash k
        vel := fun k => if i ≤ k ∧ k < i + n then make_float4 0 0 0 rho0 else b.vel k
        info := fun k => if i ≤ k ∧ k < i + n then make_particleinfo type obj k else b.info k
        log := b.log ++ classLog i n } := by
  induction n generalizing i b with
  | zero =>
    have hno : ∀ k, ¬ (i ≤ k ∧ k < i) := by intro k; omega
    cases b
    simp [forLoop, classLog, hno]
  | succ n ih =>
    rw [forLoop, ih, packBody_eq]
    simp only [BufferList.mk.injEq, classLog, List.append_assoc, and_true]
    refine ⟨?_, ?_, ?_, ?_⟩ <;>
    · funext k
      by_cases hk : k = i
      · subst hk
        have h1 : ¬ (k + 1 ≤ k ∧ k < k + 1 + n) := by omega
        have h2 : k ≤ k ∧ k < k + (n + 1) := by omega
        simp [h1, h2]
      · have h3 : (i + 1 ≤ k ∧ k < i + 1 + n) ↔ (i ≤ k ∧ k < i + (n + 1)) := by omega
        simp [h3, Function.update_noteq hk]

/-- The metadata array after packing, slot by slot. -/
theorem copy_to_array_info (hashfn : Point → particleinfo → float4 × hashKey)
    (self : DamBreakGate) (b : BufferList) (k : Nat) :
    (self.copy_to_array hashfn b).info k =
      if k < self.boundary_parts.length then make_particleinfo BOUNDPART 0 k
      else if k < self.boundary_parts.length + self.gate_parts.length then
        make_particleinfo GATEPART 0 k
      else if k < self.boundary_parts.length + self.gate_parts.length
          + self.obstacle_parts.length then make_particleinfo BOUNDPART 1 k
      else if k < self.boundary_parts.length + self.gate_parts.length
          + self.obstacle_parts.length + self.parts.length then make_particleinfo FLUIDPART 0 k
      else b.info k := by
  simp only [DamBreakGate.copy_to_array, forRange, Nat.sub_zero, Nat.add_sub_cancel_left,
    forLoop_packBody, BufferList.loadPos]
  split_ifs <;> first | rfl | (exfalso; omega)

/-- The velocity array after packing, slot by slot. -/
theorem copy_to_array_vel (hashfn : Point → particleinfo → float4 × hashKey)
    (self : DamBreakGate) (b : BufferList) (k : Nat) :
    (self.copy_to_array hashfn b).vel k =
      if k < self.boundary_parts.length + self.gate_parts.length
          + self.obstacle_parts.length + self.parts.length
      then make_float4 0 0 0 (self.m_physparams.rho0 0) else b.vel k := by
  simp only [DamBreakGate.copy_to_array, forRange, Nat.sub_zero, Nat.add_sub_cancel_left,
    forLoop_packBody, BufferList.loadPos]
  split_ifs <;> first | rfl | (exfalso; omega)

/-- The position and hash arrays after packing, slot by slot. -/
theorem copy_to_array_pos_hash (hashfn : Point → particleinfo → float4 × hashKey)
    (self : DamBreakGate) (b : BufferList) (k : Nat) :
    ((self.copy_to_array hashfn b).pos k, (self.copy_to_array hashfn b).hash k) =
      if k < self.boundary_parts.length then
        hashfn (self.boundary_parts.getD k default) (make_particleinfo BOUNDPART 0 k)
      else if k < self.boundary_parts.length + self.gate_parts.length then
        hashfn (self.gate_parts.getD (k - self.boundary_parts.length) default)
          (make_particleinfo GATEPART 0 k)
      else if k < self.boundary_parts.length + self.gate_parts.length
          + self.obstacle_parts.length then
        hashfn (self.obstacle_parts.getD
            (k - (self.boundary_parts.length + self.gate_parts.length)) default)
          (make_particleinfo BOUNDPART 1 k)
      else if k < self.boundary_parts.length + self.gate_parts.length
          + self.obstacle_parts.length + self.parts.length then
        hashfn (self.parts.getD (k - (self.boundary_parts.length + self.gate_parts.length
            + self.obstacle_parts.length)) default)
          (make_particleinfo FLUIDPART 0 k)
      else (b.pos k, b.hash k) := by
  simp only [DamBreakGate.copy_to_array, forRange, Nat.sub_zero, Nat.add_sub_cancel_left,
    forLoop_packBody, BufferList.loadPos]
  split_ifs <;> first | rfl | (exfalso; omega)

/-- The access log after packing. -/
theorem copy_to_array_log (hashfn : Point → particleinfo → float4 × hashKey)
    (self : DamBreakGate) (b : BufferList) :
    (self.copy_to_array hashfn b).log =
      b.log ++ classLog 0 self.boundary_parts.length
        ++ [⟨BUFFER_POS, false, (self.boundary_parts.length : Int) - 1⟩]
        ++ classLog self.boundary_parts.length self.gate_parts.length
        ++ [⟨BUFFER_POS, false,
              ((self.boundary_parts.length + self.gate_parts.length : Nat) : Int) - 1⟩]
        ++ classLog (self.boundary_parts.length + self.gate_parts.length)
              self.obstacle_parts.length
        ++ [⟨BUFFER_POS, false, ((self.boundary_parts.length + self.gate_parts.length
              + self.obstacle_parts.length : Nat) : Int) - 1⟩]
        ++ classLog (self.boundary_parts.length + self.gate_parts.length
              + self.obstacle_parts.length) self.parts.length
        ++ [⟨BUFFER_POS, false, ((self.boundary_parts.length + self.gate_parts.length
              + self.obstacle_parts.length + self.parts.length : Nat) : Int) - 1⟩] := by
  simp only [DamBreakGate.copy_to_array, forRange, Nat.sub_zero, Nat.add_sub_cancel_left,
    forLoop_packBody, BufferList.loadPos]

/-- Stores of a concatenated log. -/
theorem storesTo_append (key : BufferKey) (l1 l2 : List Access) :
    storesTo key (l1 ++ l2) = storesTo key l1 ++ storesTo key l2 := by
  simp [storesTo]

/-- A load is not a store. -/
theorem storesTo_load (key buf : BufferKey) (k : Int) :
    storesTo key [⟨buf, false, k⟩] = [] := by
  simp [storesTo]

/-- A packing loop stores to each buffer the slots `i, i + 1, ..`, once each
and in increasing order. -/
theorem storesTo_classLog (key : BufferKey) (i n : Nat) :
    storesTo key (classLog i n) = (List.range' i n).map Int.ofNat := by
  induction n generalizing i with
  | zero => simp [classLog, storesTo]
  | succ n ih =>
    rw [classLog, storesTo_append, ih, List.range'_succ]
    cases key <;> simp [storesTo, bodyLog]

/-- Four consecutive ranges make one range. -/
theorem range'_four (a b c d : Nat) :
    List.range' 0 a ++ (List.range' a b ++ (List.range' (a + b) c ++ List.range' (a + b + c) d))
      = List.range (a + b + c + d) := by
  rw [List.range'_append_1, List.range'_append_1]
  have h := List.range'_append_1 0 a (d + c + b)
  rw [Nat.zero_add] at h
  rw [h, List.range_eq_range']
  congr 1
  omega

/-- The stores of the whole packer to one buffer: the slots `0 .. total - 1`,
once each and in increasing order. -/
theorem copy_to_array_stores (hashfn : Point → particleinfo → float4 × hashKey)
    (self : DamBreakGate) (b : BufferList) (key : BufferKey) :
    storesTo key (self.copy_to_array hashfn b).log
      = storesTo key b.log ++ (List.range self.total).map Int.ofNat := by
  rw [copy_to_array_log]
  simp only [storesTo_append, storesTo_load, storesTo_classLog, List.append_nil,
    List.nil_append, List.append_assoc]
  rw [← List.map_append, ← List.map_append, ← List.map_append, range'_four,
    DamBreakGate.total]

/-- Element `i` of the concatenation of the four classes. -/
theorem packed_getElem? (self : DamBreakGate) (i : Nat) :
    self.packed[i]? =
      if i < self.boundary_parts.length then self.boundary_parts[i]?
      else if i < self.boundary_parts.length + self.gate_parts.length then
        self.gate_parts[i - self.boundary_parts.length]?
      else if i < self.boundary_parts.length + self.gate_parts.length
          + self.obstacle_parts.length then
        self.obstacle_parts[i - (self.boundary_parts.length + self.gate_parts.length)]?
      else self.parts[i - (self.boundary_parts.length + self.gate_parts.length
          + self.obstacle_parts.length)]? := by
  simp only [DamBreakGate.packed, List.getElem?_append, List.length_append]
  split_ifs <;> first | rfl | (exfalso; omega)

/-- The concatenation has `total` elements. -/
theorem packed_length (self : DamBreakGate) : self.packed.length = self.total := by
  simp only [DamBreakGate.packed, DamBreakGate.total, List.length_append]

/-- Reading with a default at a position that holds a value. -/
theorem getD_of_getElem? (l : List Point) (n : Nat) (p : Point) (h : l[n]? = some p) :
    l.getD n default = p := by
  simp [List.getD_eq_getElem?_getD, h]

/-- Position and hash of slot `i` come from element `i` of the concatenation
and the metadata of slot `i`. -/
theorem copy_to_array_slot (hashfn : Point → particleinfo → float4 × hashKey)
    (self : DamBreakGate) (b : BufferList) (i : Nat) (p : Point)
    (hp : self.packed[i]? = some p) :
    ((self.copy_to_array hashfn b).pos i, (self.copy_to_array hashfn b).hash i)
      = hashfn p ((self.copy_to_array hashfn b).info i) := by
  have hlt : i < self.packed.length := by
    by_contra hge
    rw [List.getElem?_eq_none (not_lt.mp hge)] at hp
    exact absurd hp (by simp)
  rw [packed_length, DamBreakGate.total] at hlt
  rw [packed_getElem?] at hp
  rw [copy_to_array_pos_hash, copy_to_array_info]
  split_ifs at hp ⊢ with h1 h2 h3
  · rw [getD_of_getElem? _ _ _ hp]
  · rw [getD_of_getElem? _ _ _ hp]
  · rw [getD_of_getElem? _ _ _ hp]
  · rw [getD_of_getElem? _ _ _ hp]

/-! ## Buffer packer: the claims -/

/-- C1: after `copy_to_array` the metadata record of every slot `i` below the
total count carries global index `i`; read in slot order the indices are
`0, 1, .., total - 1`: contiguous, strictly increasing, without gaps. -/
theorem copy_to_array_global_index (hashfn : Point → particleinfo → float4 × hashKey)
    (self : DamBreakGate) (buffers : BufferList) :
    (∀ i, i < self.total → ((self.copy_to_array hashfn buffers).info i).id = i)
      ∧ (List.range self.total).map (fun i => ((self.copy_to_array hashfn buffers).info i).id)
          = List.range self.total := by
  have hpt : ∀ i, i < self.total → ((self.copy_to_array hashfn buffers).info i).id = i := by
    intro i hi
    rw [DamBreakGate.total] at hi
    rw [copy_to_array_info]
    split_ifs <;> rfl
  refine ⟨hpt, ?_⟩
  apply List.ext_getElem
  · simp
  · intro n h1 h2
    simp only [List.getElem_map, List.getElem_range]
    apply hpt
    simpa using h2

/-- C1 at the sample object: slot 4 of 6 carries index 4. -/
theorem copy_to_array_global_index_witness :
    (4 : Nat) < sampleProblem.total
      ∧ ((sampleProblem.copy_to_array sampleCalc blankBuffers).info 4).id = 4 :=
  ⟨by decide, (copy_to_array_global_index sampleCalc sampleProblem blankBuffers).1 4 (by decide)⟩

/-- C2: after `copy_to_array` the metadata array is class-contiguous in the
order BOUNDARY, GATE, OBSTACLE, FLUID.  With `nb, ng, no, nf` the four lengths:
slots `[0, nb)` hold `(BOUNDPART, 0)`, slots `[nb, nb+ng)` hold `(GATEPART, 0)`,
slots `[nb+ng, nb+ng+no)` hold `(BOUNDPART, 1)` and slots
`[nb+ng+no, nb+ng+no+nf)` hold `(FLUIDPART, 0)`. -/
theorem copy_to_array_class_layout (hashfn : Point → particleinfo → float4 × hashKey)
    (self : DamBreakGate) (buffers : BufferList) (i : Nat) :
    (i < self.boundary_parts.length →
        ((self.copy_to_array hashfn buffers).info i).type = BOUNDPART
          ∧ ((self.copy_to_array hashfn buffers).info i).obj = 0)
      ∧ (self.boundary_parts.length ≤ i
          → i < self.boundary_parts.length + self.gate_parts.length →
        ((self.copy_to_array hashfn buffers).info i).type = GATEPART
          ∧ ((self.copy_to_array hashfn buffers).info i).obj = 0)
      ∧ (self.boundary_parts.length + self.gate_parts.length ≤ i
          → i < self.boundary_parts.length + self.gate_parts.length
              + self.obstacle_parts.length →
        ((self.copy_to_array hashfn buffers).info i).type = BOUNDPART
          ∧ ((self.copy_to_array hashfn buffers).info i).obj = 1)
      ∧ (self.boundary_parts.length + self.gate_parts.length + self.obstacle_parts.length ≤ i
          → i < self.boundary_parts.length + self.gate_parts.length
              + self.obstacle_parts.length + self.parts.length →
        ((self.copy_to_array hashfn buffers).info i).type = FLUIDPART
          ∧ ((self.copy_to_array hashfn buffers).info i).obj = 0) := by
  rw [copy_to_array_info]
  refine ⟨?_, ?_, ?_, ?_⟩
  · intro h
    rw [if_pos h]
    exact ⟨rfl, rfl⟩
  · intro h1 h2
    rw [if_neg (by omega), if_pos h2]
    exact ⟨rfl, rfl⟩
  · intro h1 h2
    rw [if_neg (by omega), if_neg (by omega), if_pos h2]
    exact ⟨rfl, rfl⟩
  · intro h1 h2
    rw [if_neg (by omega), if_neg (by omega), if_neg (by omega), if_pos h2]
    exact ⟨rfl, rfl⟩

/-- C2 at the sample object (lengths 2, 1, 1, 2): slot 3 is the obstacle slot
and holds `(BOUNDPART, 1)`. -/
theorem copy_to_array_class_layout_witness :
    (sampleProblem.boundary_parts.length + sampleProblem.gate_parts.length ≤ 3
        ∧ 3 < sampleProblem.boundary_parts.length + sampleProblem.gate_parts.length
              + sampleProblem.obstacle_parts.length)
      ∧ ((sampleProblem.copy_to_array sampleCalc blankBuffers).info 3).type = BOUNDPART
      ∧ ((sampleProblem.copy_to_array sampleCalc blankBuffers).info 3).obj = 1 :=
  ⟨by decide,
    (copy_to_array_class_layout sampleCalc sampleProblem blankBuffers 3).2.2.1
      (by decide) (by decide)⟩

/-- C3: the count returned by `fill_parts` is the sum of the sizes of the four
class lists it leaves; `copy_to_array` on those lists stores, in each of the
position, hash, velocity and metadata arrays, exactly the slots
`0 .. count - 1`, once each, and leaves every slot at or above `count` as it
was. -/
theorem fill_parts_count_eq_slots_written (prims : FillPrimitives) (wet : Bool)
    (self : DamBreakGate) (hashfn : Point → particleinfo → float4 × hashKey)
    (buffers : BufferList) :
    (self.fill_parts prims wet).2
        = (self.fill_parts prims wet).1.parts.length
          + (self.fill_parts prims wet).1.boundary_parts.length
          + (self.fill_parts prims wet).1.obstacle_parts.length
          + (self.fill_parts prims wet).1.gate_parts.length
      ∧ (∀ key : BufferKey,
          storesTo key (((self.fill_parts prims wet).1).copy_to_array hashfn buffers).log
            = storesTo key buffers.log
                ++ (List.range (self.fill_parts prims wet).2).map Int.ofNat)
      ∧ (∀ k, (self.fill_parts prims wet).2 ≤ k →
          (((self.fill_parts prims wet).1).copy_to_array hashfn buffers).pos k = buffers.pos k
            ∧ (((self.fill_parts prims wet).1).copy_to_array hashfn buffers).hash k
                = buffers.hash k
            ∧ (((self.fill_parts prims wet).1).copy_to_array hashfn buffers).vel k
                = buffers.vel k
            ∧ (((self.fill_parts prims wet).1).copy_to_array hashfn buffers).info k
                = buffers.info k) := by
  have hcount : (self.fill_parts prims wet).2 = (self.fill_parts prims wet).1.total := by
    simp only [DamBreakGate.fill_parts, DamBreakGate.total]
    omega
  refine ⟨rfl, ?_, ?_⟩
  · intro key
    rw [hcount]
    exact copy_to_array_stores hashfn _ buffers key
  · intro k hk
    rw [hcount, DamBreakGate.total] at hk
    have hph := copy_to_array_pos_hash hashfn (self.fill_parts prims wet).1 buffers k
    rw [if_neg (by omega), if_neg (by omega), if_neg (by omega), if_neg (by omega)] at hph
    have hv := copy_to_array_vel hashfn (self.fill_parts prims wet).1 buffers k
    rw [if_neg (by omega)] at hv
    have hi := copy_to_array_info hashfn (self.fill_parts prims wet).1 buffers k
    rw [if_neg (by omega), if_neg (by omega), if_neg (by omega), if_neg (by omega)] at hi
    exact ⟨congrArg Prod.fst hph, congrArg Prod.snd hph, hv, hi⟩

/-- C3 at the blank object filled by the sample primitives (one point per
region, four in all): slot 7 lies above the count and keeps its value. -/
theorem fill_parts_count_eq_slots_written_witness :
    (blankProblem.fill_parts samplePrims false).2 = 4
      ∧ (blankProblem.fill_parts samplePrims false).2 ≤ 7
      ∧ (((blankProblem.fill_parts samplePrims false).1).copy_to_array sampleCalc
            blankBuffers).pos 7 = blankBuffers.pos 7 :=
  ⟨by decide, by decide,
    ((fill_parts_count_eq_slots_written samplePrims false blankProblem sampleCalc
      blankBuffers).2.2 7 (by decide)).1⟩

/-- C4: `copy_to_array` maps the hashing routine over the concatenation
`boundary_parts ++ gate_parts ++ obstacle_parts ++ parts`.  The positions and
hashes of the slots `0 .. total - 1` are the results of the routine on the
elements of the concatenation, each with the metadata of its slot; and for
every slot `i` below the total the element used is element `i` of the
concatenation, which is element `i - offset` of its class. -/
theorem copy_to_array_refines_map (hashfn : Point → particleinfo → float4 × hashKey)
    (self : DamBreakGate) (buffers : BufferList) :
    (List.range self.total).map
        (fun i => ((self.copy_to_array hashfn buffers).pos i,
                   (self.copy_to_array hashfn buffers).hash i))
        = List.zipWith (fun p i => hashfn p ((self.copy_to_array hashfn buffers).info i))
            self.packed (List.range self.total)
      ∧ ∀ i, i < self.total → ∃ p, self.packed[i]? = some p
          ∧ ((self.copy_to_array hashfn buffers).pos i,
              (self.copy_to_array hashfn buffers).hash i)
              = hashfn p ((self.copy_to_array hashfn buffers).info i)
          ∧ (i < self.boundary_parts.length → self.boundary_parts[i]? = some p)
          ∧ (self.boundary_parts.length ≤ i
              → i < self.boundary_parts.length + self.gate_parts.length
              → self.gate_parts[i - self.boundary_parts.length]? = some p)
          ∧ (self.boundary_parts.length + self.gate_parts.length ≤ i
              → i < self.boundary_parts.length + self.gate_parts.length
                  + self.obstacle_parts.length
              → self.obstacle_parts[i - (self.boundary_parts.length
                  + self.gate_parts.length)]? = some p)
          ∧ (self.boundary_parts.length + self.gate_parts.length
                + self.obstacle_parts.length ≤ i
              → self.parts[i - (self.boundary_parts.length + self.gate_parts.length
                  + self.obstacle_parts.length)]? = some p) := by
  constructor
  · apply List.ext_getElem
    · simp [packed_length]
    · intro n h1 h2
      have hn : n < self.packed.length := by
        simp only [List.length_zipWith, lt_min_iff] at h2
        exact h2.1
      simp only [List.getElem_map, List.getElem_range, List.getElem_zipWith]
      exact copy_to_array_slot hashfn self buffers n _ (List.getElem?_eq_getElem hn)
  · intro i hi
    have hlt : i < self.packed.length := by rw [packed_length]; exact hi
    refine ⟨self.packed[i], List.getElem?_eq_getElem hlt,
      copy_to_array_slot hashfn self buffers i _ (List.getElem?_eq_getElem hlt), ?_⟩
    have hp := packed_getElem? self i
    rw [List.getElem?_eq_getElem hlt] at hp
    refine ⟨?_, ?_, ?_, ?_⟩
    · intro h
      rw [if_pos h] at hp
      exact hp.symm
    · intro h1 h2
      rw [if_neg (by omega), if_pos h2] at hp
      exact hp.symm
    · intro h1 h2
      rw [if_neg (by omega), if_neg (by omega), if_pos h2] at hp
      exact hp.symm
    · intro h1
      rw [if_neg (by omega), if_neg (by omega), if_neg (by omega)] at hp
      exact hp.symm

/-- C4 at the sample object: slot 5 holds the result of the routine on element
5 of the concatenation, the second fluid particle. -/
theorem copy_to_array_refines_map_witness :
    (5 : Nat) < sampleProblem.total
      ∧ ∃ p, sampleProblem.packed[5]? = some p
          ∧ ((sampleProblem.copy_to_array sampleCalc blankBuffers).pos 5,
              (sampleProblem.copy_to_array sampleCalc blankBuffers).hash 5)
              = sampleCalc p ((sampleProblem.copy_to_array sampleCalc blankBuffers).info 5)
          ∧ sampleProblem.parts[5 - (sampleProblem.boundary_parts.length
                + sampleProblem.gate_parts.length
                + sampleProblem.obstacle_parts.length)]? = some p := by
  obtain ⟨p, h1, h2, _, _, _, h3⟩ :=
    (copy_to_array_refines_map sampleCalc sampleProblem blankBuffers).2 5 (by decide)
  exact ⟨by decide, p, h1, h2, h3 (by decide)⟩

/-- C10: after `copy_to_array` the velocity record of every slot below the
total count is `(0, 0, 0, rho0[0])`, whatever the class of the slot. -/
theorem copy_to_array_velocity (hashfn : Point → particleinfo → float4 × hashKey)
    (self : DamBreakGate) (buffers : BufferList) (i : Nat) (h : i < self.total) :
    (self.copy_to_array hashfn buffers).vel i = ⟨0, 0, 0, self.m_physparams.rho0 0⟩ := by
  rw [DamBreakGate.total] at h
  rw [copy_to_array_vel, if_pos h]
  rfl

/-- C10 at the sample object, whose constructor sets `rho0[0] = 1000`: the
velocity record of the gate slot 2. -/
theorem copy_to_array_velocity_witness :
    (2 : Nat) < sampleProblem.total
      ∧ (sampleProblem.copy_to_array sampleCalc blankBuffers).vel 2 = ⟨0, 0, 0, 1000⟩ := by
  refine ⟨by decide, ?_⟩
  rw [copy_to_array_velocity sampleCalc sampleProblem blankBuffers 2 (by decide)]
  simp [sampleProblem, DamBreakGate.construct, DamBreakGate.mb_callback]

/-! ## Particle set builder: lemmas -/

/-- The lists `fill_parts` leaves: each class list grows by what the fill
primitive returns for the region of the class; the fluid list grows by the
base box and, when `wet` is set, by the four extra boxes, in this order. -/
theorem fill_parts_lists (prims : FillPrimitives) (wet : Bool) (self : DamBreakGate) :
    (self.fill_parts prims wet).1.boundary_parts
        = self.boundary_parts ++ prims.CubeFillBorder (self.fill_parts prims wet).1.experiment_box
            (.ofDensity self.m_physparams.r0 (self.m_physparams.rho0 0))
            self.m_physparams.r0 false
      ∧ (self.fill_parts prims wet).1.gate_parts
        = self.gate_parts ++ prims.RectFill self.gate (.ofTag GATEPART)
            self.m_physparams.r0 true
      ∧ (self.fill_parts prims wet).1.obstacle_parts
        = self.obstacle_parts ++ prims.CubeFillBorder (self.fill_parts prims wet).1.obstacle
            (.ofDensity self.m_physparams.r0 (self.m_physparams.rho0 0))
            self.m_physparams.r0 true
      ∧ (self.fill_parts prims wet).1.parts
        = self.parts
          ++ prims.CubeFill self.fluid (.ofDensity self.m_deltap (self.m_physparams.rho0 0))
              self.m_deltap true
          ++ (if wet then
              prims.CubeFill self.fluid1
                  (.ofDensity self.m_deltap (self.m_physparams.rho0 0)) self.m_deltap true
                ++ prims.CubeFill self.fluid2
                  (.ofDensity self.m_deltap (self.m_physparams.rho0 0)) self.m_deltap true
                ++ prims.CubeFill self.fluid3
                  (.ofDensity self.m_deltap (self.m_physparams.rho0 0)) self.m_deltap true
                ++ prims.CubeFill self.fluid4
                  (.ofDensity self.m_deltap (self.m_physparams.rho0 0)) self.m_deltap true
            else []) := by
  cases wet <;>
    simp [DamBreakGate.fill_parts, DamBreakGate.gate, DamBreakGate.fluid, DamBreakGate.fluid1,
      DamBreakGate.fluid2, DamBreakGate.fluid3, DamBreakGate.fluid4]

/-- The two regions `fill_parts` stores in the object. -/
theorem fill_parts_members (prims : FillPrimitives) (wet : Bool) (self : DamBreakGate) :
    (self.fill_parts prims wet).1.experiment_box
        = ⟨Point.mk3 ORIGIN_X ORIGIN_Y ORIGIN_Z, ⟨1.6, 0, 0⟩, ⟨0, 0.67, 0⟩, ⟨0, 0, 0.4⟩⟩
      ∧ (self.fill_parts prims wet).1.obstacle
        = ⟨Point.mk3 (0.9 + ORIGIN_X) (0.24 + ORIGIN_Y) (self.m_physparams.r0 + ORIGIN_Z),
            ⟨0.12, 0, 0⟩, ⟨0, 0.12, 0⟩, ⟨0, 0, 0.4 - self.m_physparams.r0⟩⟩ := by
  cases wet <;> simp [DamBreakGate.fill_parts]

/-- The values the constructor leaves in the members the builder reads. -/
theorem construct_values (base : DamBreakGate) :
    (DamBreakGate.construct base).m_deltap = 3 / 200
      ∧ (DamBreakGate.construct base).m_physparams.r0 = 3 / 200
      ∧ ((DamBreakGate.construct base).m_mbcallbackdata 0).origin = ⟨43 / 100, 0, 0⟩ := by
  simp [DamBreakGate.construct, DamBreakGate.mb_callback, make_float3, make_float3_1]
  norm_num

/-- One coordinate of an axis-aligned region: `v = o + a * l` for some `a` in
`[0, 1]` exactly when `v` lies in `[o, o + l]`. -/
theorem axis_param (o l v : ℚ) (hl : 0 < l) :
    (∃ a : ℚ, (0 ≤ a ∧ a ≤ 1) ∧ v = o + a * l) ↔ (o ≤ v ∧ v ≤ o + l) := by
  constructor
  · rintro ⟨a, ⟨h0, h1⟩, rfl⟩
    have h2 : 0 ≤ a * l := mul_nonneg h0 (le_of_lt hl)
    have h3 : a * l ≤ 1 * l := mul_le_mul_of_nonneg_right h1 (le_of_lt hl)
    constructor <;> linarith
  · rintro ⟨h0, h1⟩
    refine ⟨(v - o) / l, ⟨div_nonneg (by linarith) (le_of_lt hl), ?_⟩, ?_⟩
    · rw [div_le_one hl]; linarith
    · rw [div_mul_cancel₀ _ (ne_of_gt hl)]; ring

/-- Points of an axis-aligned box. -/
theorem Cube.contains_axis (ox oy oz m lx ly lz : ℚ) (hx : 0 < lx) (hy : 0 < ly)
    (hz : 0 < lz) (p : Point) :
    Cube.contains ⟨⟨ox, oy, oz, m⟩, ⟨lx, 0, 0⟩, ⟨0, ly, 0⟩, ⟨0, 0, lz⟩⟩ p
      ↔ (ox ≤ p.x ∧ p.x ≤ ox + lx) ∧ (oy ≤ p.y ∧ p.y ≤ oy + ly)
          ∧ (oz ≤ p.z ∧ p.z ≤ oz + lz) := by
  simp only [Cube.contains, mul_zero, add_zero, zero_add]
  constructor
  · rintro ⟨a, b, g, ha, hb, hg, ex, ey, ez⟩
    exact ⟨(axis_param ox lx p.x hx).mp ⟨a, ha, ex⟩, (axis_param oy ly p.y hy).mp ⟨b, hb, ey⟩,
      (axis_param oz lz p.z hz).mp ⟨g, hg, ez⟩⟩
  · rintro ⟨h1, h2, h3⟩
    obtain ⟨a, ha, ex⟩ := (axis_param ox lx p.x hx).mpr h1
    obtain ⟨b, hb, ey⟩ := (axis_param oy ly p.y hy).mpr h2
    obtain ⟨g, hg, ez⟩ := (axis_param oz lz p.z hz).mpr h3
    exact ⟨a, b, g, ha, hb, hg, ex, ey, ez⟩

/-- Points of the surface of an axis-aligned box: the points of the box with a
coordinate at an end of its interval. -/
theorem Cube.onBorder_axis (ox oy oz m lx ly lz : ℚ) (hx : 0 < lx) (hy : 0 < ly)
    (hz : 0 < lz) (p : Point) :
    Cube.onBorder ⟨⟨ox, oy, oz, m⟩, ⟨lx, 0, 0⟩, ⟨0, ly, 0⟩, ⟨0, 0, lz⟩⟩ p
      ↔ ((ox ≤ p.x ∧ p.x ≤ ox + lx) ∧ (oy ≤ p.y ∧ p.y ≤ oy + ly)
          ∧ (oz ≤ p.z ∧ p.z ≤ oz + lz))
        ∧ (p.x = ox ∨ p.x = ox + lx ∨ p.y = oy ∨ p.y = oy + ly
            ∨ p.z = oz ∨ p.z = oz + lz) := by
  simp only [Cube.onBorder, mul_zero, add_zero, zero_add]
  constructor
  · rintro ⟨a, b, g, ha, hb, hg, hend, ex, ey, ez⟩
    refine ⟨⟨(axis_param ox lx p.x hx).mp ⟨a, ha, ex⟩, (axis_param oy ly p.y hy).mp ⟨b, hb, ey⟩,
      (axis_param oz lz p.z hz).mp ⟨g, hg, ez⟩⟩, ?_⟩
    rcases hend with h | h | h | h | h | h <;> subst h
    · left; rw [ex]; ring
    · right; left; rw [ex]; ring
    · right; right; left; rw [ey]; ring
    · right; right; right; left; rw [ey]; ring
    · right; right; right; right; left; rw [ez]; ring
    · right; right; right; right; right; rw [ez]; ring
  · rintro ⟨⟨h1, h2, h3⟩, hend⟩
    obtain ⟨a, ha, ex⟩ := (axis_param ox lx p.x hx).mpr h1
    obtain ⟨b, hb, ey⟩ := (axis_param oy ly p.y hy).mpr h2
    obtain ⟨g, hg, ez⟩ := (axis_param oz lz p.z hz).mpr h3
    refine ⟨a, b, g, ha, hb, hg, ?_, ex, ey, ez⟩
    have hxne : lx ≠ 0 := ne_of_gt hx
    have hyne : ly ≠ 0 := ne_of_gt hy
    have hzne : lz ≠ 0 := ne_of_gt hz
    rcases hend with h | h | h | h | h | h
    · left
      have : a * lx = 0 := by linarith
      rcases mul_eq_zero.mp this with h0 | h0
      · exact h0
      · exact absurd h0 hxne
    · right; left
      have : (a - 1) * lx = 0 := by linarith
      rcases mul_eq_zero.mp this with h0 | h0
      · linarith
      · exact absurd h0 hxne
    · right; right; left
      have : b * ly = 0 := by linarith
      rcases mul_eq_zero.mp this with h0 | h0
      · exact h0
      · exact absurd h0 hyne
    · right; right; right; left
      have : (b - 1) * ly = 0 := by linarith
      rcases mul_eq_zero.mp this with h0 | h0
      · linarith
      · exact absurd h0 hyne
    · right; right; right; right; left
      have : g * lz = 0 := by linarith
      rcases mul_eq_zero.mp this with h0 | h0
      · exact h0
      · exact absurd h0 hzne
    · right; right; right; right; right
      have : (g - 1) * lz = 0 := by linarith
      rcases mul_eq_zero.mp this with h0 | h0
      · linarith
      · exact absurd h0 hzne

/-- Points of a rectangle spanned by the y and z directions. -/
theorem Rect.contains_plane (ox oy oz m ly lz : ℚ) (hy : 0 < ly) (hz : 0 < lz) (p : Point) :
    Rect.contains ⟨⟨ox, oy, oz, m⟩, ⟨0, ly, 0⟩, ⟨0, 0, lz⟩⟩ p
      ↔ p.x = ox ∧ (oy ≤ p.y ∧ p.y ≤ oy + ly) ∧ (oz ≤ p.z ∧ p.z ≤ oz + lz) := by
  simp only [Rect.contains, mul_zero, add_zero, zero_add]
  constructor
  · rintro ⟨a, b, ha, hb, ex, ey, ez⟩
    exact ⟨ex, (axis_param oy ly p.y hy).mp ⟨a, ha, ey⟩,
      (axis_param oz lz p.z hz).mp ⟨b, hb, ez⟩⟩
  · rintro ⟨h1, h2, h3⟩
    obtain ⟨a, ha, ey⟩ := (axis_param oy ly p.y hy).mpr h2
    obtain ⟨b, hb, ez⟩ := (axis_param oz lz p.z hz).mpr h3
    exact ⟨a, b, ha, hb, h1, ey, ez⟩

/-- The base fluid box of the default configuration. -/
theorem default_fluid (base : DamBreakGate) (p : Point) :
    (DamBreakGate.construct base).fluid.contains p
      ↔ (3 / 200 ≤ p.x ∧ p.x ≤ 83 / 200) ∧ (3 / 200 ≤ p.y ∧ p.y ≤ 131 / 200)
          ∧ (3 / 200 ≤ p.z ∧ p.z ≤ 2 / 5) := by
  obtain ⟨hd, hr, ho⟩ := construct_values base
  rw [DamBreakGate.fluid, hr]
  simp only [Point.mk3, ORIGIN_X, ORIGIN_Y, ORIGIN_Z]
  refine (Cube.contains_axis _ _ _ _ _ _ _ ?_ ?_ ?_ p).trans ?_
  · norm_num
  · norm_num
  · norm_num
  · norm_num

/-- The first extra fluid box of the default configuration. -/
theorem default_fluid1 (base : DamBreakGate) (p : Point) :
    (DamBreakGate.construct base).fluid1.contains p
      ↔ (43 / 100 ≤ p.x ∧ p.x ≤ 177 / 200) ∧ (3 / 200 ≤ p.y ∧ p.y ≤ 131 / 200)
          ∧ (3 / 200 ≤ p.z ∧ p.z ≤ 9 / 200) := by
  obtain ⟨hd, hr, ho⟩ := construct_values base
  rw [DamBreakGate.fluid1, hd, hr]
  simp only [Point.mk3, ORIGIN_X, ORIGIN_Y, ORIGIN_Z]
  refine (Cube.contains_axis _ _ _ _ _ _ _ ?_ ?_ ?_ p).trans ?_
  · norm_num
  · norm_num
  · norm_num
  · norm_num

/-- The second extra fluid box of the default configuration. -/
theorem default_fluid2 (base : DamBreakGate) (p : Point) :
    (DamBreakGate.construct base).fluid2.contains p
      ↔ (207 / 200 ≤ p.x ∧ p.x ≤ 317 / 200) ∧ (3 / 200 ≤ p.y ∧ p.y ≤ 131 / 200)
          ∧ (3 / 200 ≤ p.z ∧ p.z ≤ 9 / 200) := by
  obtain ⟨hd, hr, ho⟩ := construct_values base
  rw [DamBreakGate.fluid2, hr]
  simp only [Point.mk3, ORIGIN_X, ORIGIN_Y, ORIGIN_Z]
  refine (Cube.contains_axis _ _ _ _ _ _ _ ?_ ?_ ?_ p).trans ?_
  · norm_num
  · norm_num
  · norm_num
  · norm_num

/-- The third extra fluid box of the default configuration. -/
theorem default_fluid3 (base : DamBreakGate) (p : Point) :
    (DamBreakGate.construct base).fluid3.contains p
      ↔ (9 / 10 ≤ p.x ∧ p.x ≤ 51 / 50) ∧ (3 / 200 ≤ p.y ∧ p.y ≤ 9 / 40)
          ∧ (3 / 200 ≤ p.z ∧ p.z ≤ 9 / 200) := by
  obtain ⟨hd, hr, ho⟩ := construct_values base
  rw [DamBreakGate.fluid3, hd, hr]
  simp only [Point.mk3, ORIGIN_X, ORIGIN_Y, ORIGIN_Z]
  refine (Cube.contains_axis _ _ _ _ _ _ _ ?_ ?_ ?_ p).trans ?_
  · norm_num
  · norm_num
  · norm_num
  · norm_num

/-- The fourth extra fluid box of the default configuration. -/
theorem default_fluid4 (base : DamBreakGate) (p : Point) :
    (DamBreakGate.construct base).fluid4.contains p
      ↔ (9 / 10 ≤ p.x ∧ p.x ≤ 51 / 50) ∧ (3 / 8 ≤ p.y ∧ p.y ≤ 131 / 200)
          ∧ (3 / 200 ≤ p.z ∧ p.z ≤ 9 / 200) := by
  obtain ⟨hd, hr, ho⟩ := construct_values base
  rw [DamBreakGate.fluid4, hd, hr]
  simp only [Point.mk3, ORIGIN_X, ORIGIN_Y, ORIGIN_Z]
  refine (Cube.contains_axis _ _ _ _ _ _ _ ?_ ?_ ?_ p).trans ?_
  · norm_num
  · norm_num
  · norm_num
  · norm_num

/-- The gate rectangle of the default configuration. -/
theorem default_gate (base : DamBreakGate) (p : Point) :
    (DamBreakGate.construct base).gate.contains p
      ↔ p.x = 43 / 100 ∧ (0 ≤ p.y ∧ p.y ≤ 67 / 100) ∧ (0 ≤ p.z ∧ p.z ≤ 2 / 5) := by
  obtain ⟨hd, hr, ho⟩ := construct_values base
  rw [DamBreakGate.gate, ho]
  simp only [Point.mk3, Point.ofFloat3, Point.add, ORIGIN_X, ORIGIN_Y, ORIGIN_Z]
  refine (Rect.contains_plane _ _ _ _ _ _ ?_ ?_ p).trans ?_
  · norm_num
  · norm_num
  · norm_num

/-- The surface of the domain box that `fill_parts` builds. -/
theorem default_experiment_box (prims : FillPrimitives) (wet : Bool) (self : DamBreakGate)
    (p : Point) :
    (self.fill_parts prims wet).1.experiment_box.onBorder p
      ↔ ((0 ≤ p.x ∧ p.x ≤ 8 / 5) ∧ (0 ≤ p.y ∧ p.y ≤ 67 / 100) ∧ (0 ≤ p.z ∧ p.z ≤ 2 / 5))
        ∧ (p.x = 0 ∨ p.x = 8 / 5 ∨ p.y = 0 ∨ p.y = 67 / 100 ∨ p.z = 0 ∨ p.z = 2 / 5) := by
  rw [(fill_parts_members prims wet self).1]
  simp only [Point.mk3, ORIGIN_X, ORIGIN_Y, ORIGIN_Z]
  refine (Cube.onBorder_axis _ _ _ _ _ _ _ ?_ ?_ ?_ p).trans ?_
  · norm_num
  · norm_num
  · norm_num
  · norm_num

/-- The obstacle box that `fill_parts` builds in the default configuration. -/
theorem default_obstacle (prims : FillPrimitives) (wet : Bool) (base : DamBreakGate)
    (p : Point) :
    ((DamBreakGate.construct base).fill_parts prims wet).1.obstacle.contains p
      ↔ (9 / 10 ≤ p.x ∧ p.x ≤ 51 / 50) ∧ (6 / 25 ≤ p.y ∧ p.y ≤ 9 / 25)
          ∧ (3 / 200 ≤ p.z ∧ p.z ≤ 2 / 5) := by
  obtain ⟨hd, hr, ho⟩ := construct_values base
  rw [(fill_parts_members prims wet _).2, hr]
  simp only [Point.mk3, ORIGIN_X, ORIGIN_Y, ORIGIN_Z]
  refine (Cube.contains_axis _ _ _ _ _ _ _ ?_ ?_ ?_ p).trans ?_
  · norm_num
  · norm_num
  · norm_num
  · norm_num

/-- The surface of the obstacle box of the default configuration. -/
theorem default_obstacle_border (prims : FillPrimitives) (wet : Bool) (base : DamBreakGate)
    (p : Point) :
    ((DamBreakGate.construct base).fill_parts prims wet).1.obstacle.onBorder p
      ↔ ((9 / 10 ≤ p.x ∧ p.x ≤ 51 / 50) ∧ (6 / 25 ≤ p.y ∧ p.y ≤ 9 / 25)
          ∧ (3 / 200 ≤ p.z ∧ p.z ≤ 2 / 5))
        ∧ (p.x = 9 / 10 ∨ p.x = 51 / 50 ∨ p.y = 6 / 25 ∨ p.y = 9 / 25
            ∨ p.z = 3 / 200 ∨ p.z = 2 / 5) := by
  obtain ⟨hd, hr, ho⟩ := construct_values base
  rw [(fill_parts_members prims wet _).2, hr]
  simp only [Point.mk3, ORIGIN_X, ORIGIN_Y, ORIGIN_Z]
  refine (Cube.onBorder_axis _ _ _ _ _ _ _ ?_ ?_ ?_ p).trans ?_
  · norm_num
  · norm_num
  · norm_num
  · norm_num

/-! ## Particle set builder: the claims -/

/-- C13, as stated, fails: in the default configuration the point
`(0.43, 0, 0)` lies in the gate rectangle and on the surface of the domain
box, two regions of different classes. -/
theorem default_gate_meets_domain_box :
    (DamBreakGate.construct blankProblem).gate.contains ⟨43 / 100, 0, 0, 0⟩
      ∧ ((DamBreakGate.construct blankProblem).fill_parts samplePrims false).1.experiment_box.onBorder
          ⟨43 / 100, 0, 0, 0⟩ :=
  ⟨(default_gate blankProblem _).mpr (by norm_num),
    (default_experiment_box samplePrims false _ _).mpr (by norm_num)⟩

/-- C13, amended: in the default dry-bed configuration `fill_parts` fills the
surface of the domain box, the gate rectangle, the surface of the obstacle box
and the fluid box; the gate rectangle, the obstacle surface and the fluid box
are pairwise disjoint as point sets; the surface of the domain box meets the
gate rectangle exactly in the gate points with `y = 0`, `y = 0.67`, `z = 0` or
`z = 0.4`, and meets the obstacle surface and the fluid box exactly in their
points with `z = 0.4`. -/
theorem fill_parts_default_regions (prims : FillPrimitives) (base : DamBreakGate) :
    (((DamBreakGate.construct base).fill_parts prims false).1.boundary_parts
        = (DamBreakGate.construct base).boundary_parts
          ++ prims.CubeFillBorder
              ((DamBreakGate.construct base).fill_parts prims false).1.experiment_box
              (.ofDensity (DamBreakGate.construct base).m_physparams.r0
                ((DamBreakGate.construct base).m_physparams.rho0 0))
              (DamBreakGate.construct base).m_physparams.r0 false
      ∧ ((DamBreakGate.construct base).fill_parts prims false).1.gate_parts
        = (DamBreakGate.construct base).gate_parts
          ++ prims.RectFill (DamBreakGate.construct base).gate (.ofTag GATEPART)
              (DamBreakGate.construct base).m_physparams.r0 true
      ∧ ((DamBreakGate.construct base).fill_parts prims false).1.obstacle_parts
        = (DamBreakGate.construct base).obstacle_parts
          ++ prims.CubeFillBorder
              ((DamBreakGate.construct base).fill_parts prims false).1.obstacle
              (.ofDensity (DamBreakGate.construct base).m_physparams.r0
                ((DamBreakGate.construct base).m_physparams.rho0 0))
              (DamBreakGate.construct base).m_physparams.r0 true
      ∧ ((DamBreakGate.construct base).fill_parts prims false).1.parts
        = (DamBreakGate.construct base).parts
          ++ prims.CubeFill (DamBreakGate.construct base).fluid
              (.ofDensity (DamBreakGate.construct base).m_deltap
                ((DamBreakGate.construct base).m_physparams.rho0 0))
              (DamBreakGate.construct base).m_deltap true)
      ∧ (∀ p, ¬ ((DamBreakGate.construct base).gate.contains p
          ∧ ((DamBreakGate.construct base).fill_parts prims false).1.obstacle.onBorder p))
      ∧ (∀ p, ¬ ((DamBreakGate.construct base).gate.contains p
          ∧ (DamBreakGate.construct base).fluid.contains p))
      ∧ (∀ p, ¬ (((DamBreakGate.construct base).fill_parts prims false).1.obstacle.onBorder p
          ∧ (DamBreakGate.construct base).fluid.contains p))
      ∧ (∀ p, (DamBreakGate.construct base).gate.contains p →
          (((DamBreakGate.construct base).fill_parts prims false).1.experiment_box.onBorder p
            ↔ p.y = 0 ∨ p.y = 0.67 ∨ p.z = 0 ∨ p.z = 0.4))
      ∧ (∀ p, ((DamBreakGate.construct base).fill_parts prims false).1.obstacle.onBorder p →
          (((DamBreakGate.construct base).fill_parts prims false).1.experiment_box.onBorder p
            ↔ p.z = 0.4))
      ∧ (∀ p, (DamBreakGate.construct base).fluid.contains p →
          (((DamBreakGate.construct base).fill_parts prims false).1.experiment_box.onBorder p
            ↔ p.z = 0.4)) := by
  have hl := fill_parts_lists prims false (DamBreakGate.construct base)
  simp only [Bool.false_eq_true, if_false, List.append_nil] at hl
  refine ⟨hl, ?_, ?_, ?_, ?_, ?_, ?_⟩
  · rintro p ⟨hg, ho⟩
    rw [default_gate] at hg
    rw [default_obstacle_border] at ho
    linarith [hg.1, ho.1.1.1]
  · rintro p ⟨hg, hf⟩
    rw [default_gate] at hg
    rw [default_fluid] at hf
    linarith [hg.1, hf.1.2]
  · rintro p ⟨ho, hf⟩
    rw [default_obstacle_border] at ho
    rw [default_fluid] at hf
    linarith [ho.1.1.1, hf.1.2]
  · intro p hg
    rw [default_gate] at hg
    rw [default_experiment_box]
    obtain ⟨hx, ⟨hy0, hy1⟩, hz0, hz1⟩ := hg
    have e1 : (0.67 : ℚ) = 67 / 100 := by norm_num
    have e2 : (0.4 : ℚ) = 2 / 5 := by norm_num
    rw [e1, e2]
    have hx0 : p.x ≠ 0 := by rw [hx]; norm_num
    have hx1 : p.x ≠ 8 / 5 := by rw [hx]; norm_num
    constructor
    · rintro ⟨_, hside⟩
      tauto
    · intro h
      exact ⟨⟨⟨by rw [hx]; norm_num, by rw [hx]; norm_num⟩, ⟨hy0, hy1⟩, hz0, hz1⟩, by tauto⟩
  · intro p ho
    rw [default_obstacle_border] at ho
    rw [default_experiment_box]
    obtain ⟨⟨⟨hx0, hx1⟩, ⟨hy0, hy1⟩, hz0, hz1⟩, _⟩ := ho
    have e2 : (0.4 : ℚ) = 2 / 5 := by norm_num
    rw [e2]
    constructor
    · rintro ⟨_, h | h | h | h | h | h⟩
      · linarith
      · linarith
      · linarith
      · linarith
      · linarith
      · exact h
    · intro h
      exact ⟨⟨⟨by linarith, by linarith⟩, ⟨by linarith, by linarith⟩, by linarith, by linarith⟩,
        by tauto⟩
  · intro p hf
    rw [default_fluid] at hf
    rw [default_experiment_box]
    obtain ⟨⟨hx0, hx1⟩, ⟨hy0, hy1⟩, hz0, hz1⟩ := hf
    have e2 : (0.4 : ℚ) = 2 / 5 := by norm_num
    rw [e2]
    constructor
    · rintro ⟨_, h | h | h | h | h | h⟩
      · linarith
      · linarith
      · linarith
      · linarith
      · linarith
      · exact h
    · intro h
      exact ⟨⟨⟨by linarith, by linarith⟩, ⟨by linarith, by linarith⟩, by linarith, by linarith⟩,
        by tauto⟩

/-- C13, amended, at the default object: the gate point `(0.43, 0.1, 0.1)` is
not on the surface of the domain box, the gate point `(0.43, 0, 0.1)` is. -/
theorem fill_parts_default_regions_witness :
    (DamBreakGate.construct blankProblem).gate.contains ⟨43 / 100, 1 / 10, 1 / 10, 0⟩
      ∧ ¬ ((DamBreakGate.construct blankProblem).fill_parts samplePrims false).1.experiment_box.onBorder
          ⟨43 / 100, 1 / 10, 1 / 10, 0⟩
      ∧ (DamBreakGate.construct blankProblem).gate.contains ⟨43 / 100, 0, 1 / 10, 0⟩
      ∧ ((DamBreakGate.construct blankProblem).fill_parts samplePrims false).1.experiment_box.onBorder
          ⟨43 / 100, 0, 1 / 10, 0⟩ := by
  have h1 : (DamBreakGate.construct blankProblem).gate.contains ⟨43 / 100, 1 / 10, 1 / 10, 0⟩ :=
    (default_gate blankProblem _).mpr (by norm_num)
  have h2 : (DamBreakGate.construct blankProblem).gate.contains ⟨43 / 100, 0, 1 / 10, 0⟩ :=
    (default_gate blankProblem _).mpr (by norm_num)
  have key := (fill_parts_default_regions samplePrims blankProblem).2.2.2.2.1
  refine ⟨h1, ?_, h2, ?_⟩
  · rw [key _ h1]; norm_num
  · rw [key _ h2]; norm_num

/-- C14: with `r0 = deltap = 0.015` (the values the constructor sets) and the
wet-bed flag set, `fill_parts` appends to the fluid list the fill of the base
box `fluid` followed by the fills of exactly four further boxes, `fluid1` to
`fluid4`; with the flag cleared it appends the fill of the base box only; and
the five boxes are pairwise disjoint as point sets. -/
theorem fill_parts_wet_boxes (prims : FillPrimitives) (base : DamBreakGate) :
    ((DamBreakGate.construct base).fill_parts prims true).1.parts
        = (DamBreakGate.construct base).parts
          ++ prims.CubeFill (DamBreakGate.construct base).fluid
              (.ofDensity (DamBreakGate.construct base).m_deltap
                ((DamBreakGate.construct base).m_physparams.rho0 0))
              (DamBreakGate.construct base).m_deltap true
          ++ (prims.CubeFill (DamBreakGate.construct base).fluid1
                (.ofDensity (DamBreakGate.construct base).m_deltap
                  ((DamBreakGate.construct base).m_physparams.rho0 0))
                (DamBreakGate.construct base).m_deltap true
            ++ prims.CubeFill (DamBreakGate.construct base).fluid2
                (.ofDensity (DamBreakGate.construct base).m_deltap
                  ((DamBreakGate.construct base).m_physparams.rho0 0))
                (DamBreakGate.construct base).m_deltap true
            ++ prims.CubeFill (DamBreakGate.construct base).fluid3
                (.ofDensity (DamBreakGate.construct base).m_deltap
                  ((DamBreakGate.construct base).m_physparams.rho0 0))
                (DamBreakGate.construct base).m_deltap true
            ++ prims.CubeFill (DamBreakGate.construct base).fluid4
                (.ofDensity (DamBreakGate.construct base).m_deltap
                  ((DamBreakGate.construct base).m_physparams.rho0 0))
                (DamBreakGate.construct base).m_deltap true)
      ∧ ((DamBreakGate.construct base).fill_parts prims false).1.parts
        = (DamBreakGate.construct base).parts
          ++ prims.CubeFill (DamBreakGate.construct base).fluid
              (.ofDensity (DamBreakGate.construct base).m_deltap
                ((DamBreakGate.construct base).m_physparams.rho0 0))
              (DamBreakGate.construct base).m_deltap true
      ∧ List.Pairwise Cube.disjoint
          [(DamBreakGate.construct base).fluid, (DamBreakGate.construct base).fluid1,
            (DamBreakGate.construct base).fluid2, (DamBreakGate.construct base).fluid3,
            (DamBreakGate.construct base).fluid4] := by
  have ht := (fill_parts_lists prims true (DamBreakGate.construct base)).2.2.2
  have hf := (fill_parts_lists prims false (DamBreakGate.construct base)).2.2.2
  simp only [if_true] at ht
  simp only [Bool.false_eq_true, if_false, List.append_nil] at hf
  refine ⟨ht, hf, ?_⟩
  simp only [List.pairwise_cons, List.mem_cons, List.mem_singleton, List.not_mem_nil,
    forall_eq_or_imp, forall_eq, Cube.disjoint, default_fluid, default_fluid1,
    default_fluid2, default_fluid3, default_fluid4, List.Pairwise.nil, and_true,
    IsEmpty.forall_iff, implies_true]
  refine ⟨⟨?_, ?_, ?_, ?_⟩, ⟨?_, ?_, ?_⟩, ⟨?_, ?_⟩, ?_⟩ <;>
  · rintro p ⟨⟨⟨hx0, hx1⟩, ⟨hy0, hy1⟩, hz0, hz1⟩, ⟨hx0', hx1'⟩, ⟨hy0', hy1'⟩, hz0', hz1'⟩
    first | linarith

/-- C17, at the failing input: with `r0 = deltap = 0.015` and the wet-bed boxes,
the point `(0.43, 0.015, 0.015)` lies in the box `fluid1` and in the gate
rectangle, so this slab does share points with the gate.  The rest of the
claim holds: `fluid2`, `fluid3` and `fluid4` are disjoint from the gate
rectangle, and each of the four slabs is disjoint from the obstacle box and
from the surface of the domain box. -/
theorem wet_fluid1_meets_gate (prims : FillPrimitives) (base : DamBreakGate) :
    ((DamBreakGate.construct base).fluid1.contains ⟨43 / 100, 3 / 200, 3 / 200, 0⟩
        ∧ (DamBreakGate.construct base).gate.contains ⟨43 / 100, 3 / 200, 3 / 200, 0⟩)
      ∧ (∀ c ∈ [(DamBreakGate.construct base).fluid2, (DamBreakGate.construct base).fluid3,
            (DamBreakGate.construct base).fluid4],
          ∀ p, ¬ (Cube.contains c p ∧ (DamBreakGate.construct base).gate.contains p))
      ∧ (∀ c ∈ [(DamBreakGate.construct base).fluid1, (DamBreakGate.construct base).fluid2,
            (DamBreakGate.construct base).fluid3, (DamBreakGate.construct base).fluid4],
          ∀ p, ¬ (Cube.contains c p
              ∧ ((DamBreakGate.construct base).fill_parts prims true).1.obstacle.contains p)
            ∧ ¬ (Cube.contains c p
              ∧ ((DamBreakGate.construct base).fill_parts prims true).1.experiment_box.onBorder p)) := by
  refine ⟨⟨(default_fluid1 base _).mpr (by norm_num), (default_gate base _).mpr (by norm_num)⟩,
    ?_, ?_⟩
  · simp only [List.mem_cons, List.mem_singleton, List.not_mem_nil, forall_eq_or_imp, forall_eq,
      default_fluid2, default_fluid3, default_fluid4, default_gate, or_false,
      IsEmpty.forall_iff, implies_true, and_true]
    refine ⟨?_, ?_, ?_⟩ <;>
    · rintro p ⟨⟨⟨hx0, hx1⟩, _⟩, hx, _⟩
      linarith
  · simp only [List.mem_cons, List.mem_singleton, List.not_mem_nil, forall_eq_or_imp, forall_eq,
      default_fluid1, default_fluid2, default_fluid3, default_fluid4, default_obstacle,
      default_experiment_box, or_false, IsEmpty.forall_iff, implies_true, and_true]
    refine ⟨?_, ?_, ?_, ?_⟩ <;>
    · intro p
      constructor
      · rintro ⟨⟨⟨hx0, hx1⟩, ⟨hy0, hy1⟩, hz0, hz1⟩, ⟨hx0', hx1'⟩, ⟨hy0', hy1'⟩, hz0', hz1'⟩
        first | linarith
      · rintro ⟨⟨⟨hx0, hx1⟩, ⟨hy0, hy1⟩, hz0, hz1⟩, _, h | h | h | h | h | h⟩ <;> linarith

/-! ## Buffer packer: further lemmas -/

/-- The metadata of a slot, from the class of the slot. -/
theorem copy_to_array_info_of_class (hashfn : Point → particleinfo → float4 × hashKey)
    (self : DamBreakGate) (b : BufferList) (i : Nat) (c : ParticleClass)
    (h : self.classOf i = some c) :
    (self.copy_to_array hashfn b).info i = make_particleinfo c.type c.obj i := by
  rw [copy_to_array_info]
  unfold DamBreakGate.classOf at h
  split_ifs at h ⊢ <;> (cases h; rfl)

/-- The accesses of a packing loop stay in the slots of the loop. -/
theorem mem_classLog (a : Access) (i n : Nat) (h : a ∈ classLog i n) :
    (i : Int) ≤ a.index ∧ a.index < ((i + n : Nat) : Int) := by
  induction n generalizing i with
  | zero => simp [classLog] at h
  | succ n ih =>
    rw [classLog, List.mem_append] at h
    rcases h with h | h
    · simp only [bodyLog, List.mem_cons, List.mem_singleton, List.not_mem_nil, or_false] at h
      rcases h with h | h | h | h | h <;> subst h <;> simp
    · have := ih (i + 1) h
      push_cast at this ⊢
      omega

/-- With a non-empty boundary list every access of `copy_to_array` is to a slot
in `[0, total)`. -/
theorem copy_to_array_accesses_in_range (hashfn : Point → particleinfo → float4 × hashKey)
    (self : DamBreakGate) (b : BufferList) (hne : self.boundary_parts ≠ [])
    (a : Access) (ha : a ∈ (self.copy_to_array hashfn b).log) :
    a ∈ b.log ∨ (0 ≤ a.index ∧ a.index < (self.total : Int)) := by
  have hpos : 0 < self.boundary_parts.length := List.length_pos.mpr hne
  rw [copy_to_array_log] at ha
  simp only [List.mem_append, List.mem_singleton] at ha
  rw [DamBreakGate.total]
  rcases ha with ((((((((h | h) | h) | h) | h) | h) | h) | h) | h)
  · exact Or.inl h
  · right
    have := mem_classLog a _ _ h
    push_cast at this ⊢
    omega
  · right
    subst h
    push_cast
    constructor <;> omega
  · right
    have := mem_classLog a _ _ h
    push_cast at this ⊢
    omega
  · right
    subst h
    push_cast
    constructor <;> omega
  · right
    have := mem_classLog a _ _ h
    push_cast at this ⊢
    omega
  · right
    subst h
    push_cast
    constructor <;> omega
  · right
    have := mem_classLog a _ _ h
    push_cast at this ⊢
    omega
  · right
    subst h
    push_cast
    constructor <;> omega

/-- With an empty boundary list the first diagnostic load of `copy_to_array`
is `pos[-1]`. -/
theorem copy_to_array_load_of_empty_boundary
    (hashfn : Point → particleinfo → float4 × hashKey)
    (self : DamBreakGate) (b : BufferList) (h : self.boundary_parts = []) :
    (⟨BUFFER_POS, false, -1⟩ : Access) ∈ (self.copy_to_array hashfn b).log := by
  rw [copy_to_array_log, h]
  simp

/-! ## Buffer packer: further claims -/

/-- C11, as stated, fails: in the sample object slot 0 is a BOUNDARY slot and
slot 3 an OBSTACLE slot, two different classes, and `copy_to_array` writes the
same material id, `BOUNDPART`, to both. -/
theorem copy_to_array_boundary_obstacle_same_type :
    sampleProblem.classOf 0 = some .BOUNDARY
      ∧ sampleProblem.classOf 3 = some .OBSTACLE
      ∧ ((sampleProblem.copy_to_array sampleCalc blankBuffers).info 0).type = BOUNDPART
      ∧ ((sampleProblem.copy_to_array sampleCalc blankBuffers).info 3).type = BOUNDPART := by
  have h0 : sampleProblem.classOf 0 = some .BOUNDARY := by decide
  have h3 : sampleProblem.classOf 3 = some .OBSTACLE := by decide
  refine ⟨h0, h3, ?_, ?_⟩
  · rw [copy_to_array_info_of_class sampleCalc sampleProblem blankBuffers 0 _ h0]
    rfl
  · rw [copy_to_array_info_of_class sampleCalc sampleProblem blankBuffers 3 _ h3]
    rfl

/-- C11, amended: for any two slots of different classes the pair (material
id, sub-index) written by `copy_to_array` differs; the material id alone
differs unless one slot is a BOUNDARY slot and the other an OBSTACLE slot,
which both get `BOUNDPART` and differ in the sub-index (0 and 1). -/
theorem copy_to_array_class_ids (hashfn : Point → particleinfo → float4 × hashKey)
    (self : DamBreakGate) (buffers : BufferList) (i j : Nat) (ci cj : ParticleClass)
    (hi : self.classOf i = some ci) (hj : self.classOf j = some cj) (hne : ci ≠ cj) :
    (((self.copy_to_array hashfn buffers).info i).type,
        ((self.copy_to_array hashfn buffers).info i).obj)
        ≠ (((self.copy_to_array hashfn buffers).info j).type,
            ((self.copy_to_array hashfn buffers).info j).obj)
      ∧ (((self.copy_to_array hashfn buffers).info i).type
            = ((self.copy_to_array hashfn buffers).info j).type
          ↔ (ci = .BOUNDARY ∧ cj = .OBSTACLE) ∨ (ci = .OBSTACLE ∧ cj = .BOUNDARY)) := by
  rw [copy_to_array_info_of_class hashfn self buffers i ci hi,
    copy_to_array_info_of_class hashfn self buffers j cj hj]
  cases ci <;> cases cj <;>
    simp [make_particleinfo, ParticleClass.type, ParticleClass.obj] at hne ⊢

/-- C11, amended, at the sample object: slot 0 (BOUNDARY) and slot 2 (GATE)
get different material ids. -/
theorem copy_to_array_class_ids_witness :
    sampleProblem.classOf 0 = some .BOUNDARY
      ∧ sampleProblem.classOf 2 = some .GATE
      ∧ ((sampleProblem.copy_to_array sampleCalc blankBuffers).info 0).type
          ≠ ((sampleProblem.copy_to_array sampleCalc blankBuffers).info 2).type := by
  have h0 : sampleProblem.classOf 0 = some .BOUNDARY := by decide
  have h2 : sampleProblem.classOf 2 = some .GATE := by decide
  have key := (copy_to_array_class_ids sampleCalc sampleProblem blankBuffers 0 2 _ _ h0 h2
    (by decide)).2
  refine ⟨h0, h2, ?_⟩
  intro h
  have := key.mp h
  simp at this

/-- C12, at the failing input: the object with an empty boundary list, one
gate, one obstacle and two fluid particles (four slots).  `copy_to_array`
loads `pos[-1]`, a subscript outside `[0, 4)`. -/
theorem copy_to_array_empty_boundary_load :
    emptyBoundaryProblem.boundary_parts = []
      ∧ emptyBoundaryProblem.total = 4
      ∧ (⟨BUFFER_POS, false, -1⟩ : Access)
          ∈ (emptyBoundaryProblem.copy_to_array sampleCalc blankBuffers).log
      ∧ ¬ ((0 : Int) ≤ -1 ∧ (-1 : Int) < (emptyBoundaryProblem.total : Int)) := by
  refine ⟨rfl, by decide, ?_, by decide⟩
  exact copy_to_array_load_of_empty_boundary sampleCalc emptyBoundaryProblem blankBuffers rfl

/-- C16, as stated, fails: with destination buffers of capacity 3 and a count
of 6, `copy_to_array` does not fail; it stores to the position array at the
slots `0 .. 5`, three of them beyond the capacity. -/
theorem copy_to_array_stores_despite_mismatch :
    (3 : Nat) ≠ sampleProblem.total
      ∧ storesTo BUFFER_POS (sampleProblem.copy_to_array sampleCalc blankBuffers).log
          = [0, 1, 2, 3, 4, 5] := by
  refine ⟨by decide, ?_⟩
  rw [copy_to_array_stores]
  decide

/-- C16, amended: `copy_to_array` makes no capacity check and has no failure
outcome.  Whatever the capacity of the destination buffers, equal to the count
or not, it stores to each of the four arrays exactly the slots
`0 .. total - 1` and leaves the slots at or above the count as they were;
when the capacity is below the count, the stores to the slots
`capacity .. total - 1` are made all the same. -/
theorem copy_to_array_ignores_capacity (hashfn : Point → particleinfo → float4 × hashKey)
    (self : DamBreakGate) (buffers : BufferList) (capacity : Nat) (key : BufferKey) :
    storesTo key (self.copy_to_array hashfn buffers).log
        = storesTo key buffers.log ++ (List.range self.total).map Int.ofNat
      ∧ (∀ k, capacity ≤ k → k < self.total →
          (k : Int) ∈ storesTo key (self.copy_to_array hashfn buffers).log)
      ∧ (∀ k, self.total ≤ k →
          (self.copy_to_array hashfn buffers).pos k = buffers.pos k
            ∧ (self.copy_to_array hashfn buffers).hash k = buffers.hash k
            ∧ (self.copy_to_array hashfn buffers).vel k = buffers.vel k
            ∧ (self.copy_to_array hashfn buffers).info k = buffers.info k) := by
  refine ⟨copy_to_array_stores hashfn self buffers key, ?_, ?_⟩
  · intro k _ hk
    rw [copy_to_array_stores, List.mem_append]
    right
    exact List.mem_map.mpr ⟨k, List.mem_range.mpr hk, rfl⟩
  · intro k hk
    rw [DamBreakGate.total] at hk
    have hph := copy_to_array_pos_hash hashfn self buffers k
    rw [if_neg (by omega), if_neg (by omega), if_neg (by omega), if_neg (by omega)] at hph
    have hv := copy_to_array_vel hashfn self buffers k
    rw [if_neg (by omega)] at hv
    have hi := copy_to_array_info hashfn self buffers k
    rw [if_neg (by omega), if_neg (by omega), if_neg (by omega), if_neg (by omega)] at hi
    exact ⟨congrArg Prod.fst hph, congrArg Prod.snd hph, hv, hi⟩

/-- C16, amended, at the sample object with capacity 3: slot 4, beyond the
capacity, is stored to. -/
theorem copy_to_array_ignores_capacity_witness :
    (3 : Nat) ≤ 4 ∧ 4 < sampleProblem.total
      ∧ ((4 : Nat) : Int)
          ∈ storesTo BUFFER_HASH (sampleProblem.copy_to_array sampleCalc blankBuffers).log :=
  ⟨by decide, by decide,
    (copy_to_array_ignores_capacity sampleCalc sampleProblem blankBuffers 3 BUFFER_HASH).2.1 4
      (by decide) (by decide)⟩

/-! ## Gate kinematics: further claims -/

/-- Entry 1 of the sample object is the blank entry. -/
theorem sampleProblem_entry_one :
    sampleProblem.m_mbcallbackdata 1
      = ⟨FLUIDPART, ⟨0, 0, 0⟩, ⟨0, 0, 0⟩, ⟨0, 0, 0⟩, 0, 0⟩ := by
  simp [sampleProblem, DamBreakGate.construct, DamBreakGate.mb_callback, blankProblem]

/-- Entries other than entry 0 are not touched by a call. -/
theorem mb_callback_other_entries (self : DamBreakGate) (t dt : ℚ) (i : Int) (k : Nat)
    (hk : k ≠ 0) :
    (self.mb_callback t dt i).1.m_mbcallbackdata k = self.m_mbcallbackdata k := by
  simp [DamBreakGate.mb_callback, Function.update_noteq hk]

/-- C15, as stated, fails: the call `mb_callback(1/2, 1/10, 1)` on the sample
object names boundary 1, yet the entry returned is not entry 1 of the new
state, entry 1 is left as it was, and it is entry 0 that is updated. -/
theorem mb_callback_index_one_updates_entry_zero :
    (sampleProblem.mb_callback (1/2) (1/10) 1).2
        ≠ (sampleProblem.mb_callback (1/2) (1/10) 1).1.m_mbcallbackdata 1
      ∧ (sampleProblem.mb_callback (1/2) (1/10) 1).1.m_mbcallbackdata 1
          = sampleProblem.m_mbcallbackdata 1
      ∧ (sampleProblem.mb_callback (1/2) (1/10) 1).1.m_mbcallbackdata 0
          ≠ sampleProblem.m_mbcallbackdata 0 := by
  have hact : (sampleProblem.m_mbcallbackdata 0).tstart ≤ (1/2 : ℚ)
      ∧ (1/2 : ℚ) < (sampleProblem.m_mbcallbackdata 0).tend := by
    rw [sampleProblem_gate]; norm_num
  have h1 := mb_callback_other_entries sampleProblem (1/2) (1/10) 1 1 (by decide)
  refine ⟨?_, h1, ?_⟩
  · rw [h1, sampleProblem_entry_one, mb_callback_snd_active _ _ _ _ hact, sampleProblem_gate]
    intro h
    have := congrArg MbCallBack.type h
    simp at this
  · rw [mb_callback_fst_zero, mb_callback_snd_active _ _ _ _ hact, sampleProblem_gate]
    intro h
    have := congrArg (fun g => g.vel.z) h
    norm_num at this

/-- C15, amended: whatever boundary index `i` is passed, `mb_callback(t, dt, i)`
updates and returns the kinematic state of boundary 0 and leaves the state of
every other boundary as it was; the result is the same as for `i = 0`, so the
state updated and returned is that of the named boundary when `i = 0`. -/
theorem mb_callback_acts_on_entry_zero (self : DamBreakGate) (t dt : ℚ) (i : Int) :
    self.mb_callback t dt i = self.mb_callback t dt 0
      ∧ (self.mb_callback t dt i).2 = (self.mb_callback t dt i).1.m_mbcallbackdata 0
      ∧ (∀ k, k ≠ 0 →
          (self.mb_callback t dt i).1.m_mbcallbackdata k = self.m_mbcallbackdata k)
      ∧ (i = 0 →
          (self.mb_callback t dt i).2 = (self.mb_callback t dt i).1.m_mbcallbackdata i.toNat) := by
  refine ⟨rfl, rfl, fun k hk => mb_callback_other_entries self t dt i k hk, ?_⟩
  intro hi
  subst hi
  rfl

/-- C15, amended, at the sample object: the call naming boundary 1 leaves
entry 1 as it was. -/
theorem mb_callback_acts_on_entry_zero_witness :
    (1 : Nat) ≠ 0
      ∧ (sampleProblem.mb_callback (1/2) (1/10) 1).1.m_mbcallbackdata 1
          = sampleProblem.m_mbcallbackdata 1 :=
  ⟨by decide,
    (mb_callback_acts_on_entry_zero sampleProblem (1/2) (1/10) 1).2.2.1 1 (by decide)⟩

/-- C18: a call `mb_callback(t, dt, i)` leaves the origin, type, `tstart` and
`tend` of the gate entry unchanged, and the x and y components of its
accumulated displacement; this holds for the entry returned, which is the
entry stored.  Only the velocity and the z component of the displacement can
differ after the call. -/
theorem mb_callback_frame (self : DamBreakGate) (t dt : ℚ) (i : Int) :
    (self.mb_callback t dt i).1.m_mbcallbackdata 0 = (self.mb_callback t dt i).2
      ∧ (self.mb_callback t dt i).2.origin = (self.m_mbcallbackdata 0).origin
      ∧ (self.mb_callback t dt i).2.type = (self.m_mbcallbackdata 0).type
      ∧ (self.mb_callback t dt i).2.tstart = (self.m_mbcallbackdata 0).tstart
      ∧ (self.mb_callback t dt i).2.tend = (self.m_mbcallbackdata 0).tend
      ∧ (self.mb_callback t dt i).2.disp.x = (self.m_mbcallbackdata 0).disp.x
      ∧ (self.mb_callback t dt i).2.disp.y = (self.m_mbcallbackdata 0).disp.y
      ∧ (self.mb_callback t dt i).2
          = { self.m_mbcallbackdata 0 with
              vel := (self.mb_callback t dt i).2.vel
              disp := ⟨(self.m_mbcallbackdata 0).disp.x, (self.m_mbcallbackdata 0).disp.y,
                (self.mb_callback t dt i).2.disp.z⟩ } := by
  by_cases h : (self.m_mbcallbackdata 0).tstart ≤ t ∧ t < (self.m_mbcallbackdata 0).tend
  · rw [mb_callback_fst_zero, mb_callback_snd_active self t dt i h]
    simp
  · rw [mb_callback_fst_zero, mb_callback_snd_idle self t dt i h]
    simp

end GPUSPH
